import Mathlib

/-! # EUTelAutoPedestalNoiseProcessor

A shallow embedding of `src/EUTelAutoPedestalNoiseProcessor.cc`: the processor that seeds
pedestal, noise and status matrices with user provided values.

Conventions of the embedding.

* The cell type of a `FloatVec` is a type parameter `V`: the processor only copies these
  values (`resize`, `back`, `operator[]`, the fill constructor) and never computes with them.
* A member function is a function from the processor state (and its arguments) to the
  state it leaves behind, together with the fault that stopped it, if any.  The state is
  reported also when a fault stops the call, as it stands at that point.
* `streamlog_out` output and `runHeader->addProcessor` do not touch the members that are
  modelled and are left out.
-/

namespace eutelescope

/-! ## Faults -/

/-- What can stop a member function before its closing brace. -/
inductive Fault where
  /-- Calling `back()` on an empty `std::vector`: undefined behaviour. -/
  | backOfEmpty
  /-- Calling `operator[]` of a `std::vector` with an index that is not below `size()`:
  undefined behaviour. -/
  | indexOutOfRange
  /-- The fill constructor `std::vector(n, value)` reached with a negative `int n`: the
  count converts to an unsigned value above `max_size()` and the allocation throws. -/
  | negativeSize
  deriving DecidableEq

/-! ## The standard containers -/

/-- The member `std::vector::back`, which is defined on a non-empty vector only. -/
def back {V : Type} (v : List V) : Option V := v.getLast?

/-- The member `std::vector::resize(n, val)`: the first `n` elements are kept, and the
vector is filled up to size `n` with copies of `val`. -/
def resize {V : Type} (v : List V) (n : Nat) (val : V) : List V :=
  v.take n ++ List.replicate (n - v.length) val

/-- Reduction of an integer into the range of a 32-bit `int`. -/
def wrapInt (z : Int) : Int := (z + 2 ^ 31) % 2 ^ 32 - 2 ^ 31

/-- The expression
`( _maxX[iDetector] - _minX[iDetector] + 1 ) * ( _maxY[iDetector] - _minY[iDetector] + 1 )`
of line 150, evaluated in 32-bit `int` arithmetic. -/
def nPixel (minX maxX minY maxY : Int) : Int :=
  wrapInt (wrapInt (wrapInt (maxX - minX) + 1) * wrapInt (wrapInt (maxY - minY) + 1))

/-- The fill constructor `std::vector(n, value)` called with an `int n`. -/
def fillVec {T : Type} (n : Int) (value : T) : Except Fault (List T) :=
  if n < 0 then .error .negativeSize else .ok (List.replicate n.toNat value)

/-! ## The data model -/

/-- The values assigned to the five fields of the cell identifier through the
`CellIDEncoder`.  The encoding string `EUTELESCOPE::MATRIXDEFAULTENCODING` is declared in
`EUTELESCOPE.h`, which is not among the sources: the field values are kept as assigned. -/
structure CellID where
  sensorID : Nat
  xMin : Int
  yMin : Int
  xMax : Int
  yMax : Int
  deriving DecidableEq

/-- A `TrackerDataImpl`: cell identifier and charge values (`FloatVec`). -/
structure TrackerDataImpl (V : Type) where
  cellID : CellID
  chargeValues : List V
  deriving DecidableEq

/-- A `TrackerRawDataImpl`: cell identifier and ADC values (`ShortVec`). -/
structure TrackerRawDataImpl where
  cellID : CellID
  adcValues : List Int
  deriving DecidableEq

/-- A pointer member: `NULL`, the address of a live object (modelled by its content), or
the address of an object that has been deleted. -/
inductive Ptr (T : Type) where
  | null
  | obj (content : T)
  | deleted
  deriving DecidableEq

/-- An `LCCollectionVec` as handed to an event: created with `LCIO::TRACKERDATA` it holds
`TrackerDataImpl` objects, created with `LCIO::TRACKERRAWDATA` it holds
`TrackerRawDataImpl` objects. -/
inductive LCCollectionVec (V : Type) where
  | TRACKERDATA (elements : List (TrackerDataImpl V))
  | TRACKERRAWDATA (elements : List TrackerRawDataImpl)
  deriving DecidableEq

/-- The event kinds the processor tells apart: the end-of-run marker `kEORE`, the unknown
kind `kUNKNOWN`, and the normal data event.  The enumeration is declared in
`EUTELESCOPE.h`, which is not among the sources. -/
inductive EventType where
  | kDE
  | kEORE
  | kUNKNOWN
  deriving DecidableEq

/-- The part of an `EUTelEventImpl` the processor reads and writes: the event type, the
collections attached with `addCollection` (in call order, under their names), and the
names passed to `takeCollection`. -/
structure EUTelEventImpl (V : Type) where
  eventType : EventType
  collections : List (String × Ptr (LCCollectionVec V))
  taken : List String
  deriving DecidableEq

/-- The part of an `EUTelRunHeaderImpl` the processor reads. -/
structure EUTelRunHeaderImpl where
  noOfDetector : Nat
  minX : List Int
  maxX : List Int
  minY : List Int
  maxY : List Int
  deriving DecidableEq

/-- The members of `EUTelAutoPedestalNoiseProcessor`.  `_isFirstEvent` is inherited from
`marlin::Processor`, where it starts as `true`; this file only ever writes `false` to it. -/
structure EUTelAutoPedestalNoiseProcessor (V : Type) where
  _pedestalCollectionName : String
  _noiseCollectionName : String
  _statusCollectionName : String
  _initPedestal : List V
  _initNoise : List V
  _minX : List Int
  _maxX : List Int
  _minY : List Int
  _maxY : List Int
  _pedestalCollectionVec : Ptr (List (TrackerDataImpl V))
  _noiseCollectionVec : Ptr (List (TrackerDataImpl V))
  _statusCollectionVec : Ptr (List TrackerRawDataImpl)
  _isFirstEvent : Bool
  _iRun : Nat
  _iEvt : Nat
  deriving DecidableEq

/-- The state a call of `processRunHeader` or `end` leaves behind, and the fault that
stopped it, if any. -/
structure Outcome (V : Type) where
  proc : EUTelAutoPedestalNoiseProcessor V
  fault : Option Fault
  deriving DecidableEq

/-- The state and the event a call of `processEvent` leaves behind, and the fault that
stopped it, if any. -/
structure EventOutcome (V : Type) where
  proc : EUTelAutoPedestalNoiseProcessor V
  evt : EUTelEventImpl V
  fault : Option Fault
  deriving DecidableEq

/-- The three collections allocated at lines 144 to 146, as they are filled by the loop. -/
structure Sets (V : Type) where
  pedestal : List (TrackerDataImpl V)
  noise : List (TrackerDataImpl V)
  status : List TrackerRawDataImpl
  deriving DecidableEq

/-! ## The member functions -/

/-- The constructor, after the parameters have been read: the three collection pointers
are `NULL` and the configured names and value lists are in place. -/
def construct {V : Type} (pedestalName noiseName statusName : String)
    (initPedestal initNoise : List V) : EUTelAutoPedestalNoiseProcessor V :=
  { _pedestalCollectionName := pedestalName
    _noiseCollectionName := noiseName
    _statusCollectionName := statusName
    _initPedestal := initPedestal
    _initNoise := initNoise
    _minX := []
    _maxX := []
    _minY := []
    _maxY := []
    _pedestalCollectionVec := .null
    _noiseCollectionVec := .null
    _statusCollectionVec := .null
    _isFirstEvent := true
    _iRun := 0
    _iEvt := 0 }

/-- The member `init`: the run and event counters are set to zero. -/
def init {V : Type} (p : EUTelAutoPedestalNoiseProcessor V) :
    EUTelAutoPedestalNoiseProcessor V :=
  { p with _iRun := 0, _iEvt := 0 }

/-- Lines 101 to 104 and 106 to 109: when the detector count differs from the size of the
vector, the vector is resized to the detector count with its last element as filler. -/
def resizeInit {V : Type} (noOfDetector : Nat) (v : List V) : Except Fault (List V) :=
  if noOfDetector ≠ v.length then
    match back v with
    | none => .error .backOfEmpty
    | some last => .ok (resize v noOfDetector last)
  else .ok v

/-- The member `processRunHeader`. -/
def processRunHeader {V : Type} (p : EUTelAutoPedestalNoiseProcessor V)
    (rdr : EUTelRunHeaderImpl) : Outcome V :=
  let p1 := { p with _iRun := p._iRun + 1 }
  match resizeInit rdr.noOfDetector p1._initPedestal with
  | .error f => ⟨p1, some f⟩
  | .ok pedestal =>
    let p2 := { p1 with _initPedestal := pedestal }
    match resizeInit rdr.noOfDetector p2._initNoise with
    | .error f => ⟨p2, some f⟩
    | .ok noise =>
      ⟨{ p2 with
          _initNoise := noise
          _minX := rdr.minX
          _maxX := rdr.maxX
          _minY := rdr.minY
          _maxY := rdr.maxY }, none⟩

/-- The body of the loop of lines 148 to 187 for one detector: the three matrices of the
detector are appended to the three collections.  `GOODPIXEL` is the value of
`EUTELESCOPE::GOODPIXEL` as a `short`; the constant is declared in `EUTELESCOPE.h`, which
is not among the sources. -/
def buildDetector {V : Type} (GOODPIXEL : Int) (p : EUTelAutoPedestalNoiseProcessor V)
    (iDetector : Nat) (s : Sets V) : Sets V × Option Fault :=
  match p._maxX[iDetector]?, p._minX[iDetector]?, p._maxY[iDetector]?,
      p._minY[iDetector]? with
  | some maxX, some minX, some maxY, some minY =>
    let cellID : CellID := ⟨iDetector, minX, minY, maxX, maxY⟩
    match fillVec (nPixel minX maxX minY maxY) GOODPIXEL with
    | .error f => (s, some f)
    | .ok statusVec =>
      let s1 := { s with status := s.status ++ [⟨cellID, statusVec⟩] }
      match p._initPedestal[iDetector]? with
      | none => (s1, some .indexOutOfRange)
      | some pedestalValue =>
        match fillVec (nPixel minX maxX minY maxY) pedestalValue with
        | .error f => (s1, some f)
        | .ok pedestalVec =>
          let s2 := { s1 with pedestal := s1.pedestal ++ [⟨cellID, pedestalVec⟩] }
          match p._initNoise[iDetector]? with
          | none => (s2, some .indexOutOfRange)
          | some noiseValue =>
            match fillVec (nPixel minX maxX minY maxY) noiseValue with
            | .error f => (s2, some f)
            | .ok noiseVec =>
              ({ s2 with noise := s2.noise ++ [⟨cellID, noiseVec⟩] }, none)
  | _, _, _, _ => (s, some .indexOutOfRange)

/-- The loop of lines 148 to 187, with `remaining` iterations to go from `iDetector` on.
None of the vectors it reads changes in the body, so the number of iterations is the size
of `_initPedestal` when the loop is entered. -/
def buildLoop {V : Type} (GOODPIXEL : Int) (p : EUTelAutoPedestalNoiseProcessor V) :
    Nat → Nat → Sets V → Sets V × Option Fault
  | 0, _, s => (s, none)
  | remaining + 1, iDetector, s =>
    match buildDetector GOODPIXEL p iDetector s with
    | (s1, some f) => (s1, some f)
    | (s1, none) => buildLoop GOODPIXEL p remaining (iDetector + 1) s1

/-- The calls `addCollection` and `takeCollection` of lines 192 to 197 for one collection:
the collection is attached to the event under the name and its ownership is taken back. -/
def addAndTake {V : Type} (evt : EUTelEventImpl V) (c : Ptr (LCCollectionVec V))
    (name : String) : EUTelEventImpl V :=
  { evt with collections := evt.collections ++ [(name, c)], taken := evt.taken ++ [name] }

/-- The pointer to a `TRACKERDATA` collection as the event receives it. -/
def asTrackerData {V : Type} : Ptr (List (TrackerDataImpl V)) → Ptr (LCCollectionVec V)
  | .null => .null
  | .obj l => .obj (.TRACKERDATA l)
  | .deleted => .deleted

/-- The pointer to a `TRACKERRAWDATA` collection as the event receives it. -/
def asTrackerRawData {V : Type} : Ptr (List TrackerRawDataImpl) → Ptr (LCCollectionVec V)
  | .null => .null
  | .obj l => .obj (.TRACKERRAWDATA l)
  | .deleted => .deleted

/-- Lines 192 to 197: the three collections are attached to the event. -/
def publish {V : Type} (p : EUTelAutoPedestalNoiseProcessor V) (evt : EUTelEventImpl V) :
    EUTelEventImpl V :=
  addAndTake
    (addAndTake
      (addAndTake evt (asTrackerData p._pedestalCollectionVec) p._pedestalCollectionName)
      (asTrackerData p._noiseCollectionVec) p._noiseCollectionName)
    (asTrackerRawData p._statusCollectionVec) p._statusCollectionName

/-- The member `processEvent`. -/
def processEvent {V : Type} (GOODPIXEL : Int) (p : EUTelAutoPedestalNoiseProcessor V)
    (evt : EUTelEventImpl V) : EventOutcome V :=
  let p1 := { p with _iEvt := p._iEvt + 1 }
  if evt.eventType = .kEORE then ⟨p1, evt, none⟩
  else if p1._isFirstEvent then
    match buildLoop GOODPIXEL p1 p1._initPedestal.length 0 ⟨[], [], []⟩ with
    | (s, some f) =>
      ⟨{ p1 with
          _pedestalCollectionVec := .obj s.pedestal
          _noiseCollectionVec := .obj s.noise
          _statusCollectionVec := .obj s.status }, evt, some f⟩
    | (s, none) =>
      let p2 := { p1 with
        _pedestalCollectionVec := .obj s.pedestal
        _noiseCollectionVec := .obj s.noise
        _statusCollectionVec := .obj s.status
        _isFirstEvent := false }
      ⟨p2, publish p2 evt, none⟩
  else ⟨p1, publish p1 evt, none⟩

/-- The member `end`: the three collections are deleted.  The three pointers are taken to
point to live collections, as they do once the collections have been built. -/
def «end» {V : Type} (p : EUTelAutoPedestalNoiseProcessor V) :
    EUTelAutoPedestalNoiseProcessor V :=
  { p with
    _pedestalCollectionVec := .deleted
    _noiseCollectionVec := .deleted
    _statusCollectionVec := .deleted }

/-- The state, the events and the fault a sequence of `processEvent` calls leaves behind. -/
structure RunOutcome (V : Type) where
  proc : EUTelAutoPedestalNoiseProcessor V
  evts : List (EUTelEventImpl V)
  fault : Option Fault
  deriving DecidableEq

/-- The event loop of the framework, which calls `processEvent` on the events of the input
in order, until a call is stopped.  The events that were reached are returned as
`processEvent` left them. -/
def processEvents {V : Type} (GOODPIXEL : Int) :
    EUTelAutoPedestalNoiseProcessor V → List (EUTelEventImpl V) → RunOutcome V
  | p, [] => ⟨p, [], none⟩
  | p, evt :: rest =>
    match processEvent GOODPIXEL p evt with
    | ⟨p1, evt1, some f⟩ => ⟨p1, [evt1], some f⟩
    | ⟨p1, evt1, none⟩ =>
      ⟨(processEvents GOODPIXEL p1 rest).proc, evt1 :: (processEvents GOODPIXEL p1 rest).evts,
        (processEvents GOODPIXEL p1 rest).fault⟩

/-! ## Predicates on the state -/

/-- The inputs the loop body reads for detector `i` are in place: the four bounds and the
two values exist at index `i`, and the pixel count is not negative. -/
def InputAt {V : Type} (p : EUTelAutoPedestalNoiseProcessor V) (i : Nat) : Prop :=
  ∃ a b c d v w, p._minX[i]? = some a ∧ p._maxX[i]? = some b ∧ p._minY[i]? = some c ∧
    p._maxY[i]? = some d ∧ p._initPedestal[i]? = some v ∧ p._initNoise[i]? = some w ∧
    0 ≤ nPixel a b c d

/-- The three collections hold at position `i` the matrices of detector `i`. -/
def EntryAt {V : Type} (G : Int) (p : EUTelAutoPedestalNoiseProcessor V) (s : Sets V)
    (i : Nat) : Prop :=
  ∃ a b c d v w, p._minX[i]? = some a ∧ p._maxX[i]? = some b ∧ p._minY[i]? = some c ∧
    p._maxY[i]? = some d ∧ p._initPedestal[i]? = some v ∧ p._initNoise[i]? = some w ∧
    0 ≤ nPixel a b c d ∧
    s.pedestal[i]? = some ⟨⟨i, a, c, b, d⟩, List.replicate (nPixel a b c d).toNat v⟩ ∧
    s.noise[i]? = some ⟨⟨i, a, c, b, d⟩, List.replicate (nPixel a b c d).toNat w⟩ ∧
    s.status[i]? = some ⟨⟨i, a, c, b, d⟩, List.replicate (nPixel a b c d).toNat G⟩

/-- The three collections hold the matrices of the detectors `0` to `n - 1`, in order. -/
def Built {V : Type} (G : Int) (p : EUTelAutoPedestalNoiseProcessor V) (s : Sets V)
    (n : Nat) : Prop :=
  s.pedestal.length = n ∧ s.noise.length = n ∧ s.status.length = n ∧
    ∀ i, i < n → EntryAt G p s i

/-! ## Concrete sessions used as examples -/

/-- A run header with `n` detectors and no bound arrays. -/
def headerOfCount (n : Nat) : EUTelRunHeaderImpl := ⟨n, [], [], [], []⟩

/-- A processor configured with the value lists `[2, 3, 4]` (pedestal) and `[5, 6]`
(noise). -/
def shortLists : EUTelAutoPedestalNoiseProcessor ℚ :=
  construct "pedestal" "noise" "status" [2, 3, 4] [5, 6]

/-- A processor configured with the value lists `[1, 2, 3]` (pedestal) and `[7, 8, 9, 10]`
(noise). -/
def longLists : EUTelAutoPedestalNoiseProcessor ℚ :=
  construct "pedestal" "noise" "status" [1, 2, 3] [7, 8, 9, 10]

/-- A processor configured with an empty pedestal list. -/
def emptyPedestal : EUTelAutoPedestalNoiseProcessor ℚ :=
  construct "pedestal" "noise" "status" [] [1]

/-- The end-to-end scenario of the specification: two detectors with the bounds
`(minX, maxX, minY, maxY) = (0, 1, 0, 1)` and `(0, 2, 0, 0)`. -/
def scenarioHeader : EUTelRunHeaderImpl := ⟨2, [0, 0], [1, 2], [0, 0], [1, 0]⟩

/-- The end-to-end scenario of the specification: pedestal values `[10, 10]` and noise
values `[3/2, 3/2]`. -/
def scenarioProcessor : EUTelAutoPedestalNoiseProcessor ℚ :=
  construct "pedestal" "noise" "status" [10, 10] [3 / 2, 3 / 2]

/-- A data event with nothing attached. -/
def dataEvent : EUTelEventImpl ℚ := ⟨.kDE, [], []⟩

/-- One detector with `maxX < minX`: bounds `(minX, maxX, minY, maxY) = (1, 0, 0, 0)`. -/
def malformedHeader : EUTelRunHeaderImpl := ⟨1, [1], [0], [0], [0]⟩

/-- A processor configured with one pedestal value and one noise value. -/
def oneDetector : EUTelAutoPedestalNoiseProcessor ℚ :=
  construct "pedestal" "noise" "status" [10] [3 / 2]

/-- Two detectors, the second with a pixel count of zero: bounds `(0, 1, 0, 1)` and
`(5, 4, 0, 3)`. -/
def zeroCountHeader : EUTelRunHeaderImpl := ⟨2, [0, 5], [1, 4], [0, 0], [1, 3]⟩

/-- Two detectors, the second with a negative pixel count: bounds `(0, 1, 0, 1)` and
`(3, 0, 0, 0)`. -/
def negativeCountHeader : EUTelRunHeaderImpl := ⟨2, [0, 3], [1, 0], [0, 0], [1, 0]⟩

/-- An end-of-run event with nothing attached. -/
def eoreEvent : EUTelEventImpl ℚ := ⟨.kEORE, [], []⟩

/-- The header of a first run: one detector of bounds `(0, 1, 0, 1)`. -/
def firstRunHeader : EUTelRunHeaderImpl := ⟨1, [0], [1], [0], [1]⟩

/-- The header of a second run: two detectors of bounds `(0, 2, 0, 0)` and `(0, 0, 0, 0)`. -/
def secondRunHeader : EUTelRunHeaderImpl := ⟨2, [0, 0], [2, 0], [0, 0], [0, 0]⟩

/-- The state of the scenario processor after the first run: run start and one data
event. -/
def afterFirstRun : EUTelAutoPedestalNoiseProcessor ℚ :=
  (processEvent 0 (processRunHeader scenarioProcessor firstRunHeader).proc dataEvent).proc

/-- A processor configured with the value list `[1, 2, 3, 4, 5, 6]` for both pedestal and
noise. -/
def sixValues : EUTelAutoPedestalNoiseProcessor ℚ :=
  construct "pedestal" "noise" "status" [1, 2, 3, 4, 5, 6] [1, 2, 3, 4, 5, 6]

/-! ## Run start: the value lists -/

theorem resize_length {V : Type} (v : List V) (n : Nat) (val : V) :
    (resize v n val).length = n := by
  simp only [resize, List.length_append, List.length_take, List.length_replicate]
  omega

theorem resize_of_length_le {V : Type} (v : List V) (n : Nat) (val : V)
    (h : v.length ≤ n) : resize v n val = v ++ List.replicate (n - v.length) val := by
  simp [resize, List.take_of_length_le h]

theorem resize_of_le_length {V : Type} (v : List V) (n : Nat) (val : V)
    (h : n ≤ v.length) : resize v n val = v.take n := by
  simp [resize, Nat.sub_eq_zero_of_le h]

theorem back_of_ne_nil {V : Type} (v : List V) (h : v ≠ []) :
    back v = some (v.getLast h) := by
  simp [back, List.getLast?_eq_getLast, h]

theorem resizeInit_of_ne_nil {V : Type} (n : Nat) (v : List V) (h : v ≠ []) :
    resizeInit n v = .ok (if n ≠ v.length then resize v n (v.getLast h) else v) := by
  unfold resizeInit
  rw [back_of_ne_nil v h]
  split <;> rfl

theorem resizeInit_nil {V : Type} (n : Nat) (h : 0 < n) :
    resizeInit n ([] : List V) = .error .backOfEmpty := by
  have h0 : n ≠ 0 := by omega
  simp [resizeInit, back, h0]

theorem resizeInit_of_eq {V : Type} (n : Nat) (v : List V) (h : n = v.length) :
    resizeInit n v = .ok v := by
  simp [resizeInit, h]

theorem resizeInit_length {V : Type} (n : Nat) (v w : List V)
    (h : resizeInit n v = .ok w) : w.length = n := by
  unfold resizeInit at h
  split at h
  · split at h
    · cases h
    · cases h
      exact resize_length _ _ _
  · cases h
    rename_i hn
    simp only [ne_eq, not_not] at hn
    exact hn.symm

theorem resizeInit_error {V : Type} (n : Nat) (v : List V) (f : Fault)
    (h : resizeInit n v = .error f) : v = [] ∧ 0 < n ∧ f = .backOfEmpty := by
  by_cases hv : v = []
  · subst hv
    by_cases hn : n = 0
    · subst hn
      simp [resizeInit] at h
    · have hpos : 0 < n := by omega
      rw [resizeInit_nil n hpos] at h
      cases h
      exact ⟨rfl, hpos, rfl⟩
  · rw [resizeInit_of_ne_nil n v hv] at h
    cases h

/-- The pedestal list after `processRunHeader`, when its resize is not stopped. -/
theorem processRunHeader_initPedestal {V : Type} (p : EUTelAutoPedestalNoiseProcessor V)
    (rdr : EUTelRunHeaderImpl) (w : List V)
    (h : resizeInit rdr.noOfDetector p._initPedestal = .ok w) :
    (processRunHeader p rdr).proc._initPedestal = w := by
  unfold processRunHeader
  simp only [h]
  split <;> rfl

/-- The outcome of `processRunHeader` when both resizes go through. -/
theorem processRunHeader_ok {V : Type} (p : EUTelAutoPedestalNoiseProcessor V)
    (rdr : EUTelRunHeaderImpl) (w u : List V)
    (hw : resizeInit rdr.noOfDetector p._initPedestal = .ok w)
    (hu : resizeInit rdr.noOfDetector p._initNoise = .ok u) :
    processRunHeader p rdr =
      ⟨{ p with
          _iRun := p._iRun + 1
          _initPedestal := w
          _initNoise := u
          _minX := rdr.minX
          _maxX := rdr.maxX
          _minY := rdr.minY
          _maxY := rdr.maxY }, none⟩ := by
  unfold processRunHeader
  simp only [hw, hu]

/-- A call of `processRunHeader` that is not stopped has gone through both resizes. -/
theorem processRunHeader_fault_none {V : Type} (p : EUTelAutoPedestalNoiseProcessor V)
    (rdr : EUTelRunHeaderImpl) (h : (processRunHeader p rdr).fault = none) :
    ∃ w u, resizeInit rdr.noOfDetector p._initPedestal = .ok w ∧
      resizeInit rdr.noOfDetector p._initNoise = .ok u := by
  unfold processRunHeader at h
  cases hw : resizeInit rdr.noOfDetector p._initPedestal with
  | error f => simp [hw] at h
  | ok w =>
    cases hu : resizeInit rdr.noOfDetector p._initNoise with
    | error f => simp [hw, hu] at h
    | ok u => exact ⟨w, u, rfl, rfl⟩

/-- C1: a value list shorter than the detector count is padded with its last element.
For a non-empty pedestal list of length below `noOfDetector`, the pedestal list after
`processRunHeader` is the configured list followed by `noOfDetector - length` copies of
its last element; the same holds of a non-empty noise list once `processRunHeader` has
returned. -/
theorem processRunHeader_pads_short_list {V : Type}
    (p : EUTelAutoPedestalNoiseProcessor V) (rdr : EUTelRunHeaderImpl) :
    (∀ h : p._initPedestal ≠ [], p._initPedestal.length < rdr.noOfDetector →
      (processRunHeader p rdr).proc._initPedestal =
        p._initPedestal ++
          List.replicate (rdr.noOfDetector - p._initPedestal.length)
            (p._initPedestal.getLast h)) ∧
    (∀ h : p._initNoise ≠ [], p._initNoise.length < rdr.noOfDetector →
      (processRunHeader p rdr).fault = none →
      (processRunHeader p rdr).proc._initNoise =
        p._initNoise ++
          List.replicate (rdr.noOfDetector - p._initNoise.length)
            (p._initNoise.getLast h)) := by
  constructor
  · intro h hlt
    have hne : rdr.noOfDetector ≠ p._initPedestal.length := by omega
    rw [processRunHeader_initPedestal p rdr _ (resizeInit_of_ne_nil _ _ h), if_pos hne]
    exact resize_of_length_le _ _ _ (by omega)
  · intro h hlt hf
    obtain ⟨w, u, hw, hu⟩ := processRunHeader_fault_none p rdr hf
    have hne : rdr.noOfDetector ≠ p._initNoise.length := by omega
    rw [resizeInit_of_ne_nil _ _ h, if_pos hne] at hu
    cases hu
    rw [processRunHeader_ok p rdr w _ hw (by rw [resizeInit_of_ne_nil _ _ h, if_pos hne])]
    exact resize_of_length_le _ _ _ (by omega)

/-- C1, the example of the specification: six detectors and the pedestal list `[2, 3, 4]`
give `[2, 3, 4, 4, 4, 4]`, and the noise list `[5, 6]` gives `[5, 6, 6, 6, 6, 6]`. -/
theorem processRunHeader_pads_short_list_witness :
    (processRunHeader shortLists (headerOfCount 6)).proc._initPedestal = [2, 3, 4, 4, 4, 4] ∧
    (processRunHeader shortLists (headerOfCount 6)).proc._initNoise = [5, 6, 6, 6, 6, 6] :=
  ⟨(processRunHeader_pads_short_list shortLists (headerOfCount 6)).1
      (List.cons_ne_nil _ _) (by decide),
    (processRunHeader_pads_short_list shortLists (headerOfCount 6)).2
      (List.cons_ne_nil _ _) (by decide) rfl⟩

/-- C2 fails as stated: with the pedestal list `[1, 2, 3]` and two detectors, the list
held after `processRunHeader` is `[1, 2]`, not the configured list. -/
theorem processRunHeader_truncates_example :
    (headerOfCount 2).noOfDetector < longLists._initPedestal.length ∧
    (processRunHeader longLists (headerOfCount 2)).fault = none ∧
    (processRunHeader longLists (headerOfCount 2)).proc._initPedestal = [1, 2] ∧
    (processRunHeader longLists (headerOfCount 2)).proc._initPedestal ≠
      longLists._initPedestal := by
  refine ⟨by decide, rfl, rfl, ?_⟩
  intro h
  have hlen := congrArg List.length h
  revert hlen
  decide

/-- C2, amended: a value list longer than the detector count is cut down to the detector
count.  For a pedestal list of length above `noOfDetector`, the pedestal list after
`processRunHeader` is the first `noOfDetector` elements of the configured list; the same
holds of the noise list once `processRunHeader` has returned. -/
theorem processRunHeader_truncates_long_list {V : Type}
    (p : EUTelAutoPedestalNoiseProcessor V) (rdr : EUTelRunHeaderImpl) :
    (rdr.noOfDetector < p._initPedestal.length →
      (processRunHeader p rdr).proc._initPedestal =
        p._initPedestal.take rdr.noOfDetector) ∧
    (rdr.noOfDetector < p._initNoise.length →
      (processRunHeader p rdr).fault = none →
      (processRunHeader p rdr).proc._initNoise = p._initNoise.take rdr.noOfDetector) := by
  constructor
  · intro hlt
    have h : p._initPedestal ≠ [] := by
      intro h0
      rw [h0] at hlt
      simp at hlt
    have hne : rdr.noOfDetector ≠ p._initPedestal.length := by omega
    rw [processRunHeader_initPedestal p rdr _ (resizeInit_of_ne_nil _ _ h), if_pos hne]
    exact resize_of_le_length _ _ _ (by omega)
  · intro hlt hf
    obtain ⟨w, u, hw, hu⟩ := processRunHeader_fault_none p rdr hf
    have h : p._initNoise ≠ [] := by
      intro h0
      rw [h0] at hlt
      simp at hlt
    have hne : rdr.noOfDetector ≠ p._initNoise.length := by omega
    rw [processRunHeader_ok p rdr w _ hw (by rw [resizeInit_of_ne_nil _ _ h, if_pos hne])]
    exact resize_of_le_length _ _ _ (by omega)

/-- C2, amended, on an example: two detectors cut `[1, 2, 3]` down to `[1, 2]` and
`[7, 8, 9, 10]` down to `[7, 8]`. -/
theorem processRunHeader_truncates_long_list_witness :
    (processRunHeader longLists (headerOfCount 2)).proc._initPedestal = [1, 2] ∧
    (processRunHeader longLists (headerOfCount 2)).proc._initNoise = [7, 8] :=
  ⟨(processRunHeader_truncates_long_list longLists (headerOfCount 2)).1 (by decide),
    (processRunHeader_truncates_long_list longLists (headerOfCount 2)).2 (by decide) rfl⟩

/-- C3: what the code does on an empty value list and a positive detector count.  When
the pedestal list or the noise list is empty, the call is stopped by `back()` on the empty
vector (line 103 or line 108), which is undefined behaviour: the code raises no error of
its own. -/
theorem processRunHeader_empty_list {V : Type}
    (p : EUTelAutoPedestalNoiseProcessor V) (rdr : EUTelRunHeaderImpl)
    (hempty : p._initPedestal = [] ∨ p._initNoise = []) (hpos : 0 < rdr.noOfDetector) :
    (processRunHeader p rdr).fault = some .backOfEmpty := by
  by_cases hp : p._initPedestal = []
  · simp [processRunHeader, hp, resizeInit_nil _ hpos]
  · have hn : p._initNoise = [] := hempty.resolve_left hp
    simp [processRunHeader, resizeInit_of_ne_nil _ _ hp, hn, resizeInit_nil _ hpos]

/-- C3 on the failing input: an empty pedestal list and one detector. -/
theorem processRunHeader_empty_list_witness :
    (processRunHeader emptyPedestal (headerOfCount 1)).fault = some .backOfEmpty :=
  processRunHeader_empty_list emptyPedestal (headerOfCount 1) (Or.inl rfl) (by decide)

/-- The sizes of the two value lists after a returning `processRunHeader`. -/
theorem processRunHeader_sizes {V : Type}
    (p : EUTelAutoPedestalNoiseProcessor V) (rdr : EUTelRunHeaderImpl)
    (h : (processRunHeader p rdr).fault = none) :
    (processRunHeader p rdr).proc._initPedestal.length = rdr.noOfDetector ∧
    (processRunHeader p rdr).proc._initNoise.length = rdr.noOfDetector := by
  obtain ⟨w, u, hw, hu⟩ := processRunHeader_fault_none p rdr h
  rw [processRunHeader_ok p rdr w u hw hu]
  exact ⟨resizeInit_length _ _ _ hw, resizeInit_length _ _ _ hu⟩

/-- C4: when `processRunHeader` returns, the pedestal list and the noise list both have
exactly `noOfDetector` elements. -/
theorem processRunHeader_length {V : Type}
    (p : EUTelAutoPedestalNoiseProcessor V) (rdr : EUTelRunHeaderImpl)
    (h : (processRunHeader p rdr).fault = none) :
    (processRunHeader p rdr).proc._initPedestal.length = rdr.noOfDetector ∧
    (processRunHeader p rdr).proc._initNoise.length = rdr.noOfDetector :=
  processRunHeader_sizes p rdr h

/-- C4 on examples: six detectors on lists of length 3 and 2. -/
theorem processRunHeader_length_witness :
    (processRunHeader shortLists (headerOfCount 6)).proc._initPedestal.length = 6 ∧
    (processRunHeader shortLists (headerOfCount 6)).proc._initNoise.length = 6 :=
  processRunHeader_length shortLists (headerOfCount 6) rfl

/-! ## The first data event: the build -/

theorem wrapInt_of_range (z : Int) (hlo : -2 ^ 31 ≤ z) (hhi : z < 2 ^ 31) : wrapInt z = z := by
  unfold wrapInt
  have h : (z + 2 ^ 31) % 2 ^ 32 = z + 2 ^ 31 :=
    Int.emod_eq_of_lt (by omega) (by omega)
  omega

/-- Without overflow the pixel count is the product of the two extents. -/
theorem nPixel_of_le (a b c d : Int) (hx : a ≤ b) (hy : c ≤ d)
    (h : (b - a + 1) * (d - c + 1) < 2 ^ 31) :
    nPixel a b c d = (b - a + 1) * (d - c + 1) := by
  have hx1 : 1 ≤ b - a + 1 := by omega
  have hy1 : 1 ≤ d - c + 1 := by omega
  have hX : b - a + 1 ≤ (b - a + 1) * (d - c + 1) := by nlinarith
  have hY : d - c + 1 ≤ (b - a + 1) * (d - c + 1) := by nlinarith
  unfold nPixel
  rw [wrapInt_of_range (b - a) (by omega) (by omega),
    wrapInt_of_range (d - c) (by omega) (by omega),
    wrapInt_of_range (b - a + 1) (by omega) (by omega),
    wrapInt_of_range (d - c + 1) (by omega) (by omega),
    wrapInt_of_range _ (by omega) h]

/-- One pass of the loop body on a detector whose inputs are in place. -/
theorem buildDetector_ok {V : Type} (G : Int) (p : EUTelAutoPedestalNoiseProcessor V)
    (i : Nat) (s : Sets V) (a b c d : Int) (v w : V)
    (ha : p._minX[i]? = some a) (hb : p._maxX[i]? = some b)
    (hc : p._minY[i]? = some c) (hd : p._maxY[i]? = some d)
    (hv : p._initPedestal[i]? = some v) (hw : p._initNoise[i]? = some w)
    (hn : 0 ≤ nPixel a b c d) :
    buildDetector G p i s =
      (⟨s.pedestal ++ [⟨⟨i, a, c, b, d⟩, List.replicate (nPixel a b c d).toNat v⟩],
        s.noise ++ [⟨⟨i, a, c, b, d⟩, List.replicate (nPixel a b c d).toNat w⟩],
        s.status ++ [⟨⟨i, a, c, b, d⟩, List.replicate (nPixel a b c d).toNat G⟩]⟩, none) := by
  have hlt : ¬ nPixel a b c d < 0 := by omega
  simp [buildDetector, ha, hb, hc, hd, hv, hw, fillVec, hlt]

/-- A pass of the loop body that is not stopped has found all its inputs in place. -/
theorem buildDetector_none {V : Type} (G : Int) (p : EUTelAutoPedestalNoiseProcessor V)
    (i : Nat) (s : Sets V) (h : (buildDetector G p i s).2 = none) : InputAt p i := by
  unfold buildDetector at h
  cases hb : p._maxX[i]? with
  | none => simp [hb] at h
  | some b =>
    cases ha : p._minX[i]? with
    | none => simp [hb, ha] at h
    | some a =>
      cases hd : p._maxY[i]? with
      | none => simp [hb, ha, hd] at h
      | some d =>
        cases hc : p._minY[i]? with
        | none => simp [hb, ha, hd, hc] at h
        | some c =>
          by_cases hn : nPixel a b c d < 0
          · simp [hb, ha, hd, hc, fillVec, hn] at h
          · cases hv : p._initPedestal[i]? with
            | none => simp [hb, ha, hd, hc, fillVec, hn, hv] at h
            | some v =>
              cases hw : p._initNoise[i]? with
              | none => simp [hb, ha, hd, hc, fillVec, hn, hv, hw] at h
              | some w => exact ⟨a, b, c, d, v, w, ha, hb, hc, hd, hv, hw, by omega⟩

theorem inputAt_congr {V : Type} (p q : EUTelAutoPedestalNoiseProcessor V) (i : Nat)
    (h1 : q._minX = p._minX) (h2 : q._maxX = p._maxX) (h3 : q._minY = p._minY)
    (h4 : q._maxY = p._maxY) (h5 : q._initPedestal = p._initPedestal)
    (h6 : q._initNoise = p._initNoise) (h : InputAt p i) : InputAt q i := by
  unfold InputAt at h ⊢
  rw [h1, h2, h3, h4, h5, h6]
  exact h

theorem entryAt_congr {V : Type} (G : Int) (p q : EUTelAutoPedestalNoiseProcessor V)
    (s : Sets V) (i : Nat)
    (h1 : q._minX = p._minX) (h2 : q._maxX = p._maxX) (h3 : q._minY = p._minY)
    (h4 : q._maxY = p._maxY) (h5 : q._initPedestal = p._initPedestal)
    (h6 : q._initNoise = p._initNoise) (h : EntryAt G p s i) : EntryAt G q s i := by
  unfold EntryAt at h ⊢
  rw [h1, h2, h3, h4, h5, h6]
  exact h

theorem built_congr {V : Type} (G : Int) (p q : EUTelAutoPedestalNoiseProcessor V)
    (s : Sets V) (n : Nat)
    (h1 : q._minX = p._minX) (h2 : q._maxX = p._maxX) (h3 : q._minY = p._minY)
    (h4 : q._maxY = p._maxY) (h5 : q._initPedestal = p._initPedestal)
    (h6 : q._initNoise = p._initNoise) (h : Built G p s n) : Built G q s n :=
  ⟨h.1, h.2.1, h.2.2.1, fun i hi => entryAt_congr G p q s i h1 h2 h3 h4 h5 h6 (h.2.2.2 i hi)⟩

/-- One pass of the loop body extends collections that hold the detectors below `i` to
collections that hold the detectors up to `i`. -/
theorem buildDetector_built {V : Type} (G : Int) (p : EUTelAutoPedestalNoiseProcessor V)
    (i : Nat) (s : Sets V) (hs : Built G p s i) (hi : InputAt p i) :
    ∃ s1, buildDetector G p i s = (s1, none) ∧ Built G p s1 (i + 1) := by
  obtain ⟨a, b, c, d, v, w, ha, hb, hc, hd, hv, hw, hn⟩ := hi
  obtain ⟨hlp, hln, hls, hall⟩ := hs
  refine ⟨_, buildDetector_ok G p i s a b c d v w ha hb hc hd hv hw hn, ?_, ?_, ?_, ?_⟩
  · simp [hlp]
  · simp [hln]
  · simp [hls]
  · intro j hj
    by_cases hji : j = i
    · subst hji
      refine ⟨a, b, c, d, v, w, ha, hb, hc, hd, hv, hw, hn, ?_, ?_, ?_⟩
      · rw [← hlp]
        simp
      · rw [← hln]
        simp
      · rw [← hls]
        simp
    · have hlt : j < i := by omega
      obtain ⟨a', b', c', d', v', w', ha', hb', hc', hd', hv', hw', hn', e1, e2, e3⟩ :=
        hall j hlt
      refine ⟨a', b', c', d', v', w', ha', hb', hc', hd', hv', hw', hn', ?_, ?_, ?_⟩
      · rw [List.getElem?_append_left (by omega)]
        exact e1
      · rw [List.getElem?_append_left (by omega)]
        exact e2
      · rw [List.getElem?_append_left (by omega)]
        exact e3

/-- The loop, run on detectors whose inputs are all in place, is not stopped and leaves
collections that hold every detector it went through. -/
theorem buildLoop_built {V : Type} (G : Int) (p : EUTelAutoPedestalNoiseProcessor V) :
    ∀ (k i : Nat) (s : Sets V), Built G p s i →
      (∀ j, i ≤ j → j < i + k → InputAt p j) →
      ∃ s1, buildLoop G p k i s = (s1, none) ∧ Built G p s1 (i + k) := by
  intro k
  induction k with
  | zero =>
    intro i s hs _
    exact ⟨s, rfl, hs⟩
  | succ k ih =>
    intro i s hs hin
    obtain ⟨s1, h1, hb1⟩ := buildDetector_built G p i s hs (hin i (le_refl i) (by omega))
    obtain ⟨s2, h2, hb2⟩ := ih (i + 1) s1 hb1 (fun j hj1 hj2 => hin j (by omega) (by omega))
    refine ⟨s2, ?_, ?_⟩
    · simp only [buildLoop, h1]
      exact h2
    · have e : i + (k + 1) = i + 1 + k := by omega
      rw [e]
      exact hb2

/-- A loop that is not stopped has found the inputs of every detector in place. -/
theorem buildLoop_none {V : Type} (G : Int) (p : EUTelAutoPedestalNoiseProcessor V) :
    ∀ (k i : Nat) (s : Sets V), (buildLoop G p k i s).2 = none →
      ∀ j, i ≤ j → j < i + k → InputAt p j := by
  intro k
  induction k with
  | zero =>
    intro i s _ j hj1 hj2
    omega
  | succ k ih =>
    intro i s h j hj1 hj2
    cases hd : buildDetector G p i s with
    | mk s1 f =>
      cases f with
      | some f =>
        simp [buildLoop, hd] at h
      | none =>
        simp only [buildLoop, hd] at h
        by_cases hji : j = i
        · subst hji
          exact buildDetector_none G p j s (by rw [hd])
        · exact ih (i + 1) s1 h j (by omega) (by omega)

/-- A loop that is stopped has been stopped by a negative pixel count whenever all bounds
and values are in place. -/
theorem buildLoop_fault {V : Type} (G : Int) (p : EUTelAutoPedestalNoiseProcessor V) :
    ∀ (k i : Nat) (s : Sets V) (f : Fault), (buildLoop G p k i s).2 = some f →
      i + k ≤ p._minX.length → i + k ≤ p._maxX.length → i + k ≤ p._minY.length →
      i + k ≤ p._maxY.length → i + k ≤ p._initPedestal.length →
      i + k ≤ p._initNoise.length → f = .negativeSize := by
  intro k
  induction k with
  | zero =>
    intro i s f h
    simp [buildLoop] at h
  | succ k ih =>
    intro i s f h h1 h2 h3 h4 h5 h6
    cases hd : buildDetector G p i s with
    | mk s1 g =>
      cases g with
      | none =>
        simp only [buildLoop, hd] at h
        exact ih (i + 1) s1 f h (by omega) (by omega) (by omega) (by omega) (by omega)
          (by omega)
      | some g =>
        simp only [buildLoop, hd] at h
        cases h
        obtain ⟨a, ha⟩ : ∃ a, p._minX[i]? = some a :=
          ⟨p._minX[i], List.getElem?_eq_getElem (by omega)⟩
        obtain ⟨b, hb⟩ : ∃ b, p._maxX[i]? = some b :=
          ⟨p._maxX[i], List.getElem?_eq_getElem (by omega)⟩
        obtain ⟨c, hc⟩ : ∃ c, p._minY[i]? = some c :=
          ⟨p._minY[i], List.getElem?_eq_getElem (by omega)⟩
        obtain ⟨d, hd'⟩ : ∃ d, p._maxY[i]? = some d :=
          ⟨p._maxY[i], List.getElem?_eq_getElem (by omega)⟩
        obtain ⟨v, hv⟩ : ∃ v, p._initPedestal[i]? = some v :=
          ⟨p._initPedestal[i], List.getElem?_eq_getElem (by omega)⟩
        obtain ⟨w, hw⟩ : ∃ w, p._initNoise[i]? = some w :=
          ⟨p._initNoise[i], List.getElem?_eq_getElem (by omega)⟩
        by_cases hn : nPixel a b c d < 0
        · simp [buildDetector, ha, hb, hc, hd', fillVec, hn] at hd
          exact hd.2.symm
        · rw [buildDetector_ok G p i s a b c d v w ha hb hc hd' hv hw (by omega)] at hd
          cases hd

/-! ## `processEvent` case by case -/

/-- An end-of-run event only advances the event counter. -/
theorem processEvent_eore {V : Type} (G : Int) (p : EUTelAutoPedestalNoiseProcessor V)
    (evt : EUTelEventImpl V) (h : evt.eventType = .kEORE) :
    processEvent G p evt = ⟨{ p with _iEvt := p._iEvt + 1 }, evt, none⟩ := by
  simp [processEvent, h]

/-- Once the first-event flag is down, an event that is not the end-of-run marker is
handed the collections the processor holds, and nothing but the event counter changes. -/
theorem processEvent_later {V : Type} (G : Int) (p : EUTelAutoPedestalNoiseProcessor V)
    (evt : EUTelEventImpl V) (hfirst : p._isFirstEvent = false)
    (hevt : evt.eventType ≠ .kEORE) :
    processEvent G p evt = ⟨{ p with _iEvt := p._iEvt + 1 }, publish p evt, none⟩ := by
  simp [processEvent, hevt, hfirst, publish]

theorem buildLoop_iEvt {V : Type} (G : Int) (p : EUTelAutoPedestalNoiseProcessor V)
    (n : Nat) : ∀ (k i : Nat) (s : Sets V),
      buildLoop G { p with _iEvt := n } k i s = buildLoop G p k i s := by
  intro k
  induction k with
  | zero =>
    intro i s
    rfl
  | succ k ih =>
    intro i s
    have hd : buildDetector G { p with _iEvt := n } i s = buildDetector G p i s := rfl
    simp only [buildLoop, hd, ih]

/-- The first event that is not the end-of-run marker, in terms of the loop. -/
theorem processEvent_first_eq {V : Type} (G : Int) (p : EUTelAutoPedestalNoiseProcessor V)
    (evt : EUTelEventImpl V) (hfirst : p._isFirstEvent = true)
    (hevt : evt.eventType ≠ .kEORE) :
    processEvent G p evt =
      match buildLoop G p p._initPedestal.length 0 ⟨[], [], []⟩ with
      | (s, some f) =>
        ⟨{ p with
            _iEvt := p._iEvt + 1
            _pedestalCollectionVec := .obj s.pedestal
            _noiseCollectionVec := .obj s.noise
            _statusCollectionVec := .obj s.status }, evt, some f⟩
      | (s, none) =>
        ⟨{ p with
            _iEvt := p._iEvt + 1
            _pedestalCollectionVec := .obj s.pedestal
            _noiseCollectionVec := .obj s.noise
            _statusCollectionVec := .obj s.status
            _isFirstEvent := false },
          publish { p with
            _pedestalCollectionVec := .obj s.pedestal
            _noiseCollectionVec := .obj s.noise
            _statusCollectionVec := .obj s.status } evt, none⟩ := by
  unfold processEvent
  rw [if_neg hevt]
  dsimp only
  rw [if_pos hfirst, buildLoop_iEvt]
  cases buildLoop G p p._initPedestal.length 0 ⟨[], [], []⟩ with
  | mk s f =>
    cases f with
    | none => rfl
    | some f => rfl

/-- The first event that is not the end-of-run marker, on inputs that are all in place:
the three collections are built, the flag is lowered and the event receives them. -/
theorem processEvent_first {V : Type} (G : Int) (p : EUTelAutoPedestalNoiseProcessor V)
    (evt : EUTelEventImpl V) (hfirst : p._isFirstEvent = true)
    (hevt : evt.eventType ≠ .kEORE)
    (hin : ∀ j, j < p._initPedestal.length → InputAt p j) :
    ∃ s, Built G p s p._initPedestal.length ∧
      processEvent G p evt =
        ⟨{ p with
            _iEvt := p._iEvt + 1
            _pedestalCollectionVec := .obj s.pedestal
            _noiseCollectionVec := .obj s.noise
            _statusCollectionVec := .obj s.status
            _isFirstEvent := false },
          publish { p with
            _pedestalCollectionVec := .obj s.pedestal
            _noiseCollectionVec := .obj s.noise
            _statusCollectionVec := .obj s.status } evt, none⟩ := by
  have h0 : Built G p ⟨[], [], []⟩ 0 :=
    ⟨rfl, rfl, rfl, fun i hi => absurd hi (Nat.not_lt_zero i)⟩
  obtain ⟨s, hs, hb⟩ := buildLoop_built G p p._initPedestal.length 0 ⟨[], [], []⟩ h0
    (fun j _ hj => hin j (by omega))
  refine ⟨s, ?_, ?_⟩
  · rw [Nat.zero_add] at hb
    exact hb
  · rw [processEvent_first_eq G p evt hfirst hevt, hs]

/-- The first event that is not the end-of-run marker goes through exactly when the inputs
of every detector are in place. -/
theorem processEvent_first_none_iff {V : Type} (G : Int)
    (p : EUTelAutoPedestalNoiseProcessor V) (evt : EUTelEventImpl V)
    (hfirst : p._isFirstEvent = true) (hevt : evt.eventType ≠ .kEORE) :
    (processEvent G p evt).fault = none ↔ ∀ j, j < p._initPedestal.length → InputAt p j := by
  constructor
  · intro h j hj
    have hl : (buildLoop G p p._initPedestal.length 0 ⟨[], [], []⟩).2 = none := by
      rw [processEvent_first_eq G p evt hfirst hevt] at h
      cases hb : buildLoop G p p._initPedestal.length 0 ⟨[], [], []⟩ with
      | mk s f =>
        cases f with
        | none => rfl
        | some f =>
          rw [hb] at h
          cases h
    exact buildLoop_none G p _ 0 _ hl j (Nat.zero_le j) (by omega)
  · intro h
    obtain ⟨s, _, hs⟩ := processEvent_first G p evt hfirst hevt h
    rw [hs]

/-- An event that is stopped: the event is left as it was, the flag stays up, and the
value lists and bounds are untouched. -/
theorem processEvent_fault {V : Type} (G : Int)
    (p : EUTelAutoPedestalNoiseProcessor V) (evt : EUTelEventImpl V)
    (h : (processEvent G p evt).fault ≠ none) :
    (processEvent G p evt).evt = evt ∧
    (processEvent G p evt).proc._isFirstEvent = true ∧
    (processEvent G p evt).proc._initPedestal = p._initPedestal ∧
    (processEvent G p evt).proc._initNoise = p._initNoise ∧
    (processEvent G p evt).proc._minX = p._minX ∧
    (processEvent G p evt).proc._maxX = p._maxX ∧
    (processEvent G p evt).proc._minY = p._minY ∧
    (processEvent G p evt).proc._maxY = p._maxY := by
  by_cases hevt : evt.eventType = .kEORE
  · rw [processEvent_eore G p evt hevt] at h
    exact absurd rfl h
  · cases hfirst : p._isFirstEvent with
    | false =>
      rw [processEvent_later G p evt hfirst hevt] at h
      exact absurd rfl h
    | true =>
      rw [processEvent_first_eq G p evt hfirst hevt] at h ⊢
      cases hb : buildLoop G p p._initPedestal.length 0 ⟨[], [], []⟩ with
      | mk s f =>
        cases f with
        | none =>
          rw [hb] at h
          exact absurd rfl h
        | some f => exact ⟨rfl, hfirst, rfl, rfl, rfl, rfl, rfl, rfl⟩

/-- An event that is stopped has been stopped by a negative pixel count whenever all bounds
and values are in place. -/
theorem processEvent_fault_kind {V : Type} (G : Int)
    (p : EUTelAutoPedestalNoiseProcessor V) (evt : EUTelEventImpl V) (f : Fault)
    (h : (processEvent G p evt).fault = some f)
    (h1 : p._initPedestal.length ≤ p._minX.length)
    (h2 : p._initPedestal.length ≤ p._maxX.length)
    (h3 : p._initPedestal.length ≤ p._minY.length)
    (h4 : p._initPedestal.length ≤ p._maxY.length)
    (h5 : p._initPedestal.length ≤ p._initNoise.length) : f = .negativeSize := by
  by_cases hevt : evt.eventType = .kEORE
  · rw [processEvent_eore G p evt hevt] at h
    cases h
  · cases hfirst : p._isFirstEvent with
    | false =>
      rw [processEvent_later G p evt hfirst hevt] at h
      cases h
    | true =>
      rw [processEvent_first_eq G p evt hfirst hevt] at h
      cases hb : buildLoop G p p._initPedestal.length 0 ⟨[], [], []⟩ with
      | mk s g =>
        cases g with
        | none =>
          rw [hb] at h
          cases h
        | some g =>
          rw [hb] at h
          have hg : (buildLoop G p p._initPedestal.length 0 ⟨[], [], []⟩).2 = some g := by
            rw [hb]
          have hk := buildLoop_fault G p _ 0 _ g hg (by omega) (by omega) (by omega)
            (by omega) (by omega) (by omega)
          cases h
          exact hk

/-! ## A run: run start followed by the first data event -/

/-- The entries of built collections, read off at the bounds and values of a detector. -/
theorem built_entry {V : Type} (G : Int) (p : EUTelAutoPedestalNoiseProcessor V)
    (s : Sets V) (n i : Nat) (a b c d : Int) (v w : V) (hs : Built G p s n) (hi : i < n)
    (ha : p._minX[i]? = some a) (hb : p._maxX[i]? = some b)
    (hc : p._minY[i]? = some c) (hd : p._maxY[i]? = some d)
    (hv : p._initPedestal[i]? = some v) (hw : p._initNoise[i]? = some w) :
    s.pedestal[i]? = some ⟨⟨i, a, c, b, d⟩, List.replicate (nPixel a b c d).toNat v⟩ ∧
    s.noise[i]? = some ⟨⟨i, a, c, b, d⟩, List.replicate (nPixel a b c d).toNat w⟩ ∧
    s.status[i]? = some ⟨⟨i, a, c, b, d⟩, List.replicate (nPixel a b c d).toNat G⟩ := by
  obtain ⟨a', b', c', d', v', w', ha', hb', hc', hd', hv', hw', _, e1, e2, e3⟩ :=
    hs.2.2.2 i hi
  cases ha.symm.trans ha'
  cases hb.symm.trans hb'
  cases hc.symm.trans hc'
  cases hd.symm.trans hd'
  cases hv.symm.trans hv'
  cases hw.symm.trans hw'
  exact ⟨e1, e2, e3⟩

/-- What a returning `processRunHeader` leaves untouched and what it loads. -/
theorem processRunHeader_frame {V : Type} (p : EUTelAutoPedestalNoiseProcessor V)
    (rdr : EUTelRunHeaderImpl) (h : (processRunHeader p rdr).fault = none) :
    (processRunHeader p rdr).proc._minX = rdr.minX ∧
    (processRunHeader p rdr).proc._maxX = rdr.maxX ∧
    (processRunHeader p rdr).proc._minY = rdr.minY ∧
    (processRunHeader p rdr).proc._maxY = rdr.maxY ∧
    (processRunHeader p rdr).proc._isFirstEvent = p._isFirstEvent ∧
    (processRunHeader p rdr).proc._pedestalCollectionVec = p._pedestalCollectionVec ∧
    (processRunHeader p rdr).proc._noiseCollectionVec = p._noiseCollectionVec ∧
    (processRunHeader p rdr).proc._statusCollectionVec = p._statusCollectionVec ∧
    (processRunHeader p rdr).proc._pedestalCollectionName = p._pedestalCollectionName ∧
    (processRunHeader p rdr).proc._noiseCollectionName = p._noiseCollectionName ∧
    (processRunHeader p rdr).proc._statusCollectionName = p._statusCollectionName := by
  obtain ⟨w, u, hw, hu⟩ := processRunHeader_fault_none p rdr h
  rw [processRunHeader_ok p rdr w u hw hu]
  exact ⟨rfl, rfl, rfl, rfl, rfl, rfl, rfl, rfl, rfl, rfl, rfl⟩

/-- After a returning `processRunHeader` whose bound arrays have one entry per detector,
the inputs of every detector are in place as soon as no pixel count is negative. -/
theorem processRunHeader_inputs {V : Type} (p : EUTelAutoPedestalNoiseProcessor V)
    (rdr : EUTelRunHeaderImpl) (h : (processRunHeader p rdr).fault = none)
    (h1 : rdr.minX.length = rdr.noOfDetector) (h2 : rdr.maxX.length = rdr.noOfDetector)
    (h3 : rdr.minY.length = rdr.noOfDetector) (h4 : rdr.maxY.length = rdr.noOfDetector)
    (hgeo : ∀ (i : Nat) (a b c d : Int), rdr.minX[i]? = some a → rdr.maxX[i]? = some b →
      rdr.minY[i]? = some c → rdr.maxY[i]? = some d → 0 ≤ nPixel a b c d) :
    ∀ j, j < (processRunHeader p rdr).proc._initPedestal.length →
      InputAt (processRunHeader p rdr).proc j := by
  obtain ⟨hl1, hl2⟩ := processRunHeader_sizes p rdr h
  obtain ⟨f1, f2, f3, f4, _⟩ := processRunHeader_frame p rdr h
  intro j hj
  rw [hl1] at hj
  have ha : rdr.minX[j]? = some rdr.minX[j] := List.getElem?_eq_getElem (by omega)
  have hb : rdr.maxX[j]? = some rdr.maxX[j] := List.getElem?_eq_getElem (by omega)
  have hc : rdr.minY[j]? = some rdr.minY[j] := List.getElem?_eq_getElem (by omega)
  have hd : rdr.maxY[j]? = some rdr.maxY[j] := List.getElem?_eq_getElem (by omega)
  refine ⟨rdr.minX[j], rdr.maxX[j], rdr.minY[j], rdr.maxY[j],
    (processRunHeader p rdr).proc._initPedestal[j],
    (processRunHeader p rdr).proc._initNoise[j], ?_, ?_, ?_, ?_, ?_, ?_, ?_⟩
  · rw [f1]
    exact ha
  · rw [f2]
    exact hb
  · rw [f3]
    exact hc
  · rw [f4]
    exact hd
  · exact List.getElem?_eq_getElem (by omega)
  · exact List.getElem?_eq_getElem (by omega)
  · exact hgeo j _ _ _ _ ha hb hc hd

/-- C5: content of the built matrices.  After a run start that returned, with bound arrays
of one entry per detector, `minX ≤ maxX`, `minY ≤ maxY` and a pixel count
`(maxX - minX + 1) * (maxY - minY + 1)` below `2 ^ 31` for every detector, the first data
event is not stopped and leaves three collections in which, for every detector `i`, the
pedestal matrix is that many copies of the reconciled pedestal value `i`, the noise matrix
that many copies of the reconciled noise value `i`, and the status matrix that many copies
of `GOODPIXEL`. -/
theorem processEvent_matrix_content {V : Type} (G : Int)
    (p : EUTelAutoPedestalNoiseProcessor V) (rdr : EUTelRunHeaderImpl)
    (evt : EUTelEventImpl V)
    (hrun : (processRunHeader p rdr).fault = none)
    (hfirst : p._isFirstEvent = true) (hevt : evt.eventType ≠ .kEORE)
    (h1 : rdr.minX.length = rdr.noOfDetector) (h2 : rdr.maxX.length = rdr.noOfDetector)
    (h3 : rdr.minY.length = rdr.noOfDetector) (h4 : rdr.maxY.length = rdr.noOfDetector)
    (hgeo : ∀ (i : Nat) (a b c d : Int), rdr.minX[i]? = some a → rdr.maxX[i]? = some b →
      rdr.minY[i]? = some c → rdr.maxY[i]? = some d →
      a ≤ b ∧ c ≤ d ∧ (b - a + 1) * (d - c + 1) < 2 ^ 31) :
    (processEvent G (processRunHeader p rdr).proc evt).fault = none ∧
    ∃ pedestal noise status,
      (processEvent G (processRunHeader p rdr).proc evt).proc._pedestalCollectionVec =
        .obj pedestal ∧
      (processEvent G (processRunHeader p rdr).proc evt).proc._noiseCollectionVec =
        .obj noise ∧
      (processEvent G (processRunHeader p rdr).proc evt).proc._statusCollectionVec =
        .obj status ∧
      ∀ (i : Nat) (a b c d : Int) (v w : V),
        rdr.minX[i]? = some a → rdr.maxX[i]? = some b →
        rdr.minY[i]? = some c → rdr.maxY[i]? = some d →
        (processRunHeader p rdr).proc._initPedestal[i]? = some v →
        (processRunHeader p rdr).proc._initNoise[i]? = some w →
        pedestal[i]?.map (·.chargeValues) =
          some (List.replicate ((b - a + 1) * (d - c + 1)).toNat v) ∧
        noise[i]?.map (·.chargeValues) =
          some (List.replicate ((b - a + 1) * (d - c + 1)).toNat w) ∧
        status[i]?.map (·.adcValues) =
          some (List.replicate ((b - a + 1) * (d - c + 1)).toNat G) := by
  obtain ⟨f1, f2, f3, f4, f5, _⟩ := processRunHeader_frame p rdr hrun
  have hin := processRunHeader_inputs p rdr hrun h1 h2 h3 h4
    (fun i a b c d ha hb hc hd => by
      obtain ⟨hx, hy, hlt⟩ := hgeo i a b c d ha hb hc hd
      rw [nPixel_of_le a b c d hx hy hlt]
      have hx1 : 0 ≤ b - a + 1 := by omega
      have hy1 : 0 ≤ d - c + 1 := by omega
      exact Int.mul_nonneg hx1 hy1)
  obtain ⟨s, hs, he⟩ := processEvent_first G (processRunHeader p rdr).proc evt
    (f5.trans hfirst) hevt hin
  rw [he]
  refine ⟨rfl, s.pedestal, s.noise, s.status, rfl, rfl, rfl, ?_⟩
  intro i a b c d v w ha hb hc hd hv hw
  obtain ⟨hx, hy, hlt⟩ := hgeo i a b c d ha hb hc hd
  have hi : i < (processRunHeader p rdr).proc._initPedestal.length := by
    by_contra hge
    rw [List.getElem?_eq_none (by omega)] at hv
    cases hv
  obtain ⟨e1, e2, e3⟩ := built_entry G _ s _ i a b c d v w hs hi (by rw [f1]; exact ha)
    (by rw [f2]; exact hb) (by rw [f3]; exact hc) (by rw [f4]; exact hd) hv hw
  rw [nPixel_of_le a b c d hx hy hlt] at e1 e2 e3
  rw [e1, e2, e3]
  exact ⟨rfl, rfl, rfl⟩

/-- C6: order and tagging of the built collections.  After a run start that returned, with
bound arrays of one entry per detector and no negative pixel count, the first data event
is not stopped and leaves three collections of exactly `noOfDetector` entries each, the
entry at position `i` of each being tagged `sensorID = i`, `xMin = minX[i]`,
`yMin = minY[i]`, `xMax = maxX[i]`, `yMax = maxY[i]`. -/
theorem processEvent_order_and_tags {V : Type} (G : Int)
    (p : EUTelAutoPedestalNoiseProcessor V) (rdr : EUTelRunHeaderImpl)
    (evt : EUTelEventImpl V)
    (hrun : (processRunHeader p rdr).fault = none)
    (hfirst : p._isFirstEvent = true) (hevt : evt.eventType ≠ .kEORE)
    (h1 : rdr.minX.length = rdr.noOfDetector) (h2 : rdr.maxX.length = rdr.noOfDetector)
    (h3 : rdr.minY.length = rdr.noOfDetector) (h4 : rdr.maxY.length = rdr.noOfDetector)
    (hgeo : ∀ (i : Nat) (a b c d : Int), rdr.minX[i]? = some a → rdr.maxX[i]? = some b →
      rdr.minY[i]? = some c → rdr.maxY[i]? = some d → 0 ≤ nPixel a b c d) :
    (processEvent G (processRunHeader p rdr).proc evt).fault = none ∧
    ∃ pedestal noise status,
      (processEvent G (processRunHeader p rdr).proc evt).proc._pedestalCollectionVec =
        .obj pedestal ∧
      (processEvent G (processRunHeader p rdr).proc evt).proc._noiseCollectionVec =
        .obj noise ∧
      (processEvent G (processRunHeader p rdr).proc evt).proc._statusCollectionVec =
        .obj status ∧
      pedestal.length = rdr.noOfDetector ∧ noise.length = rdr.noOfDetector ∧
      status.length = rdr.noOfDetector ∧
      ∀ (i : Nat) (a b c d : Int),
        rdr.minX[i]? = some a → rdr.maxX[i]? = some b →
        rdr.minY[i]? = some c → rdr.maxY[i]? = some d →
        pedestal[i]?.map (·.cellID) = some ⟨i, a, c, b, d⟩ ∧
        noise[i]?.map (·.cellID) = some ⟨i, a, c, b, d⟩ ∧
        status[i]?.map (·.cellID) = some ⟨i, a, c, b, d⟩ := by
  obtain ⟨f1, f2, f3, f4, f5, _⟩ := processRunHeader_frame p rdr hrun
  obtain ⟨hl1, hl2⟩ := processRunHeader_sizes p rdr hrun
  have hin := processRunHeader_inputs p rdr hrun h1 h2 h3 h4 hgeo
  obtain ⟨s, hs, he⟩ := processEvent_first G (processRunHeader p rdr).proc evt
    (f5.trans hfirst) hevt hin
  rw [he]
  rw [hl1] at hs
  refine ⟨rfl, s.pedestal, s.noise, s.status, rfl, rfl, rfl, hs.1, hs.2.1, hs.2.2.1, ?_⟩
  intro i a b c d ha hb hc hd
  have hi : i < rdr.noOfDetector := by
    by_contra hge
    rw [List.getElem?_eq_none (by omega)] at ha
    cases ha
  obtain ⟨e1, e2, e3⟩ := built_entry G _ s _ i a b c d
    (processRunHeader p rdr).proc._initPedestal[i]
    (processRunHeader p rdr).proc._initNoise[i] hs hi (by rw [f1]; exact ha)
    (by rw [f2]; exact hb) (by rw [f3]; exact hc) (by rw [f4]; exact hd)
    (List.getElem?_eq_getElem (by omega)) (List.getElem?_eq_getElem (by omega))
  rw [e1, e2, e3]
  exact ⟨rfl, rfl, rfl⟩

/-- The geometry of the end-to-end scenario is well formed. -/
theorem scenarioHeader_wellFormed (i : Nat) (a b c d : Int)
    (ha : scenarioHeader.minX[i]? = some a) (hb : scenarioHeader.maxX[i]? = some b)
    (hc : scenarioHeader.minY[i]? = some c) (hd : scenarioHeader.maxY[i]? = some d) :
    a ≤ b ∧ c ≤ d ∧ (b - a + 1) * (d - c + 1) < 2 ^ 31 := by
  rcases i with _ | _ | i
  · simp [scenarioHeader] at ha hb hc hd
    subst ha hb hc hd
    decide
  · simp [scenarioHeader] at ha hb hc hd
    subst ha hb hc hd
    decide
  · simp [scenarioHeader] at ha

/-- C5 on the end-to-end scenario of the specification: bounds `(0, 1, 0, 1)` give four
cells and bounds `(0, 2, 0, 0)` give three cells, of value `10` in the pedestal matrices,
`3/2` in the noise matrices and `GOODPIXEL = 0` in the status matrices. -/
theorem processEvent_matrix_content_witness :
    ∃ pedestal noise status,
      (processEvent 0 (processRunHeader scenarioProcessor scenarioHeader).proc
        dataEvent).proc._pedestalCollectionVec = .obj pedestal ∧
      (processEvent 0 (processRunHeader scenarioProcessor scenarioHeader).proc
        dataEvent).proc._noiseCollectionVec = .obj noise ∧
      (processEvent 0 (processRunHeader scenarioProcessor scenarioHeader).proc
        dataEvent).proc._statusCollectionVec = .obj status ∧
      (pedestal[0]?.map (·.chargeValues) = some [10, 10, 10, 10] ∧
        noise[0]?.map (·.chargeValues) = some [3 / 2, 3 / 2, 3 / 2, 3 / 2] ∧
        status[0]?.map (·.adcValues) = some [0, 0, 0, 0]) ∧
      (pedestal[1]?.map (·.chargeValues) = some [10, 10, 10] ∧
        noise[1]?.map (·.chargeValues) = some [3 / 2, 3 / 2, 3 / 2] ∧
        status[1]?.map (·.adcValues) = some [0, 0, 0]) := by
  obtain ⟨_, pedestal, noise, status, e1, e2, e3, h⟩ :=
    processEvent_matrix_content 0 scenarioProcessor scenarioHeader dataEvent rfl rfl
      (by decide) rfl rfl rfl rfl scenarioHeader_wellFormed
  exact ⟨pedestal, noise, status, e1, e2, e3,
    h 0 0 1 0 1 10 (3 / 2) rfl rfl rfl rfl rfl rfl,
    h 1 0 2 0 0 10 (3 / 2) rfl rfl rfl rfl rfl rfl⟩

/-- No pixel count of the end-to-end scenario is negative. -/
theorem scenarioHeader_nonneg (i : Nat) (a b c d : Int)
    (ha : scenarioHeader.minX[i]? = some a) (hb : scenarioHeader.maxX[i]? = some b)
    (hc : scenarioHeader.minY[i]? = some c) (hd : scenarioHeader.maxY[i]? = some d) :
    0 ≤ nPixel a b c d := by
  obtain ⟨hx, hy, hlt⟩ := scenarioHeader_wellFormed i a b c d ha hb hc hd
  rw [nPixel_of_le a b c d hx hy hlt]
  exact Int.mul_nonneg (by omega) (by omega)

/-- C6 on the end-to-end scenario of the specification: two entries in each collection,
tagged with the detector index and the bounds of the detector. -/
theorem processEvent_order_and_tags_witness :
    ∃ pedestal noise status,
      (processEvent 0 (processRunHeader scenarioProcessor scenarioHeader).proc
        dataEvent).proc._pedestalCollectionVec = .obj pedestal ∧
      (processEvent 0 (processRunHeader scenarioProcessor scenarioHeader).proc
        dataEvent).proc._noiseCollectionVec = .obj noise ∧
      (processEvent 0 (processRunHeader scenarioProcessor scenarioHeader).proc
        dataEvent).proc._statusCollectionVec = .obj status ∧
      pedestal.length = 2 ∧ noise.length = 2 ∧ status.length = 2 ∧
      (pedestal[0]?.map (·.cellID) = some ⟨0, 0, 0, 1, 1⟩ ∧
        noise[0]?.map (·.cellID) = some ⟨0, 0, 0, 1, 1⟩ ∧
        status[0]?.map (·.cellID) = some ⟨0, 0, 0, 1, 1⟩) ∧
      (pedestal[1]?.map (·.cellID) = some ⟨1, 0, 0, 2, 0⟩ ∧
        noise[1]?.map (·.cellID) = some ⟨1, 0, 0, 2, 0⟩ ∧
        status[1]?.map (·.cellID) = some ⟨1, 0, 0, 2, 0⟩) := by
  obtain ⟨_, pedestal, noise, status, e1, e2, e3, l1, l2, l3, h⟩ :=
    processEvent_order_and_tags 0 scenarioProcessor scenarioHeader dataEvent rfl rfl
      (by decide) rfl rfl rfl rfl scenarioHeader_nonneg
  exact ⟨pedestal, noise, status, e1, e2, e3, l1, l2, l3,
    h 0 0 1 0 1 rfl rfl rfl rfl, h 1 0 2 0 0 rfl rfl rfl rfl⟩

/-! ## Malformed geometry -/

theorem publish_collections {V : Type} (p : EUTelAutoPedestalNoiseProcessor V)
    (evt : EUTelEventImpl V) :
    (publish p evt).collections =
      evt.collections ++
        [(p._pedestalCollectionName, asTrackerData p._pedestalCollectionVec),
          (p._noiseCollectionName, asTrackerData p._noiseCollectionVec),
          (p._statusCollectionName, asTrackerRawData p._statusCollectionVec)] := by
  simp [publish, addAndTake]

theorem processEvents_cons_none {V : Type} (G : Int)
    (p p1 : EUTelAutoPedestalNoiseProcessor V) (evt evt1 : EUTelEventImpl V)
    (rest : List (EUTelEventImpl V)) (h : processEvent G p evt = ⟨p1, evt1, none⟩) :
    processEvents G p (evt :: rest) =
      ⟨(processEvents G p1 rest).proc, evt1 :: (processEvents G p1 rest).evts,
        (processEvents G p1 rest).fault⟩ := by
  simp only [processEvents, h]

theorem processEvents_cons_some {V : Type} (G : Int)
    (p : EUTelAutoPedestalNoiseProcessor V) (evt : EUTelEventImpl V)
    (rest : List (EUTelEventImpl V)) (f : Fault)
    (h : (processEvent G p evt).fault = some f) :
    processEvents G p (evt :: rest) =
      ⟨(processEvent G p evt).proc, [(processEvent G p evt).evt], some f⟩ := by
  cases hr : processEvent G p evt with
  | mk p1 evt1 g =>
    rw [hr] at h
    cases h
    simp only [processEvents, hr]

/-- With the flag up and the inputs of some detector not in place, every event of the
input that is reached comes out as it went in. -/
theorem processEvents_stopped {V : Type} (G : Int) :
    ∀ (evts : List (EUTelEventImpl V)) (p : EUTelAutoPedestalNoiseProcessor V),
      p._isFirstEvent = true → ¬ (∀ j, j < p._initPedestal.length → InputAt p j) →
      (processEvents G p evts).evts <+: evts := by
  intro evts
  induction evts with
  | nil =>
    intro p _ _
    exact List.prefix_refl _
  | cons evt rest ih =>
    intro p hfirst hbad
    by_cases hevt : evt.eventType = .kEORE
    · rw [processEvents_cons_none G p _ evt evt rest (processEvent_eore G p evt hevt)]
      have hrest := ih { p with _iEvt := p._iEvt + 1 } hfirst
        (fun hall => hbad (fun j hj =>
          inputAt_congr _ p j rfl rfl rfl rfl rfl rfl (hall j hj)))
      exact (List.prefix_cons_inj evt).mpr hrest
    · have hf : (processEvent G p evt).fault ≠ none := fun hnone =>
        hbad ((processEvent_first_none_iff G p evt hfirst hevt).mp hnone)
      obtain ⟨f, hf'⟩ := Option.ne_none_iff_exists'.mp hf
      rw [processEvents_cons_some G p evt rest f hf', (processEvent_fault G p evt hf).1]
      exact List.prefix_iff_eq_take.mpr rfl

/-- C7 fails as stated: with the single detector of bounds `(minX, maxX) = (1, 0)`, so
`maxX < minX`, the first data event is not stopped; the three collections are built, each
with one matrix of zero cells, and attached to the event. -/
theorem processEvent_malformed_geometry_example :
    malformedHeader.maxX = [0] ∧ malformedHeader.minX = [1] ∧
    (processRunHeader oneDetector malformedHeader).fault = none ∧
    (processEvent 0 (processRunHeader oneDetector malformedHeader).proc dataEvent).fault =
      none ∧
    (processEvent 0 (processRunHeader oneDetector malformedHeader).proc
      dataEvent).proc._pedestalCollectionVec = .obj [⟨⟨0, 1, 0, 0, 0⟩, []⟩] ∧
    (processEvent 0 (processRunHeader oneDetector malformedHeader).proc
      dataEvent).evt.collections =
      [("pedestal", .obj (.TRACKERDATA [⟨⟨0, 1, 0, 0, 0⟩, []⟩])),
        ("noise", .obj (.TRACKERDATA [⟨⟨0, 1, 0, 0, 0⟩, []⟩])),
        ("status", .obj (.TRACKERRAWDATA [⟨⟨0, 1, 0, 0, 0⟩, []⟩]))] :=
  ⟨rfl, rfl, rfl, rfl, rfl, rfl⟩

/-- C7, amended: a negative pixel count stops the build.  After a run start that returned,
with the flag up, bound arrays of one entry per detector and some detector whose pixel
count, as line 150 computes it, is negative, every data event is stopped by the failing
allocation of the status matrix and is left without any collection, and every event of the
run that is reached comes out as it went in. -/
theorem processEvent_negative_count {V : Type} (G : Int)
    (p : EUTelAutoPedestalNoiseProcessor V) (rdr : EUTelRunHeaderImpl)
    (hrun : (processRunHeader p rdr).fault = none)
    (hfirst : p._isFirstEvent = true)
    (h1 : rdr.minX.length = rdr.noOfDetector) (h2 : rdr.maxX.length = rdr.noOfDetector)
    (h3 : rdr.minY.length = rdr.noOfDetector) (h4 : rdr.maxY.length = rdr.noOfDetector)
    (hneg : ∃ (i : Nat) (a b c d : Int), rdr.minX[i]? = some a ∧ rdr.maxX[i]? = some b ∧
      rdr.minY[i]? = some c ∧ rdr.maxY[i]? = some d ∧ nPixel a b c d < 0) :
    (∀ evt : EUTelEventImpl V, evt.eventType ≠ .kEORE →
      (processEvent G (processRunHeader p rdr).proc evt).fault = some .negativeSize ∧
      (processEvent G (processRunHeader p rdr).proc evt).evt = evt) ∧
    (∀ evts : List (EUTelEventImpl V),
      (processEvents G (processRunHeader p rdr).proc evts).evts <+: evts) := by
  obtain ⟨f1, f2, f3, f4, f5, _⟩ := processRunHeader_frame p rdr hrun
  obtain ⟨hl1, hl2⟩ := processRunHeader_sizes p rdr hrun
  obtain ⟨i, a, b, c, d, ha, hb, hc, hd, hn⟩ := hneg
  have hi : i < (processRunHeader p rdr).proc._initPedestal.length := by
    by_contra hge
    rw [List.getElem?_eq_none (by omega)] at ha
    cases ha
  have hbad : ¬ (∀ j, j < (processRunHeader p rdr).proc._initPedestal.length →
      InputAt (processRunHeader p rdr).proc j) := by
    intro hall
    obtain ⟨a', b', c', d', _, _, ha', hb', hc', hd', _, _, hn'⟩ := hall i hi
    rw [f1] at ha'
    rw [f2] at hb'
    rw [f3] at hc'
    rw [f4] at hd'
    cases ha.symm.trans ha'
    cases hb.symm.trans hb'
    cases hc.symm.trans hc'
    cases hd.symm.trans hd'
    omega
  constructor
  · intro evt hevt
    have hf : (processEvent G (processRunHeader p rdr).proc evt).fault ≠ none := fun hnone =>
      hbad ((processEvent_first_none_iff G _ evt (f5.trans hfirst) hevt).mp hnone)
    obtain ⟨f, hf'⟩ := Option.ne_none_iff_exists'.mp hf
    have hk := processEvent_fault_kind G _ evt f hf' (by rw [f1]; omega) (by rw [f2]; omega)
      (by rw [f3]; omega) (by rw [f4]; omega) (by omega)
    rw [hk] at hf'
    exact ⟨hf', (processEvent_fault G _ evt hf).1⟩
  · intro evts
    exact processEvents_stopped G evts _ (f5.trans hfirst) hbad

/-- C7, amended, on an example: the second detector has the bounds `(3, 0, 0, 0)`, a pixel
count of `-2`; a data event is stopped, and of an end-of-run event followed by two data
events nothing comes out changed. -/
theorem processEvent_negative_count_witness :
    (processEvent 0 (processRunHeader scenarioProcessor negativeCountHeader).proc
      dataEvent).fault = some .negativeSize ∧
    (processEvent 0 (processRunHeader scenarioProcessor negativeCountHeader).proc
      dataEvent).evt = dataEvent ∧
    (processEvents 0 (processRunHeader scenarioProcessor negativeCountHeader).proc
      [eoreEvent, dataEvent, dataEvent]).evts <+: [eoreEvent, dataEvent, dataEvent] :=
  have h := processEvent_negative_count 0 scenarioProcessor negativeCountHeader rfl rfl
    rfl rfl rfl rfl ⟨1, 3, 0, 0, 0, rfl, rfl, rfl, rfl, by decide⟩
  ⟨(h.1 dataEvent (by decide)).1, (h.1 dataEvent (by decide)).2,
    h.2 [eoreEvent, dataEvent, dataEvent]⟩

/-- C8 fails as stated: the second detector has the bounds `(5, 4, 0, 3)`, a pixel count of
zero; the first data event is not stopped, and the three collections attached to the event
hold a zero-length matrix for that detector. -/
theorem processEvent_zero_count_example :
    nPixel 5 4 0 3 = 0 ∧
    (processEvent 0 (processRunHeader scenarioProcessor zeroCountHeader).proc
      dataEvent).fault = none ∧
    (processEvent 0 (processRunHeader scenarioProcessor zeroCountHeader).proc
      dataEvent).evt.collections =
      [("pedestal", .obj (.TRACKERDATA
          [⟨⟨0, 0, 0, 1, 1⟩, [10, 10, 10, 10]⟩, ⟨⟨1, 5, 0, 4, 3⟩, []⟩])),
        ("noise", .obj (.TRACKERDATA
          [⟨⟨0, 0, 0, 1, 1⟩, [3 / 2, 3 / 2, 3 / 2, 3 / 2]⟩, ⟨⟨1, 5, 0, 4, 3⟩, []⟩])),
        ("status", .obj (.TRACKERRAWDATA
          [⟨⟨0, 0, 0, 1, 1⟩, [0, 0, 0, 0]⟩, ⟨⟨1, 5, 0, 4, 3⟩, []⟩]))] :=
  ⟨by decide, rfl, rfl⟩

/-- C8, amended: a pixel count of zero is built and published.  After a run start that
returned, with the flag up, bound arrays of one entry per detector and no negative pixel
count, the first data event is not stopped, and for every detector whose pixel count is
zero the three collections attached to the event hold a zero-length matrix. -/
theorem processEvent_zero_count {V : Type} (G : Int)
    (p : EUTelAutoPedestalNoiseProcessor V) (rdr : EUTelRunHeaderImpl)
    (evt : EUTelEventImpl V)
    (hrun : (processRunHeader p rdr).fault = none)
    (hfirst : p._isFirstEvent = true) (hevt : evt.eventType ≠ .kEORE)
    (h1 : rdr.minX.length = rdr.noOfDetector) (h2 : rdr.maxX.length = rdr.noOfDetector)
    (h3 : rdr.minY.length = rdr.noOfDetector) (h4 : rdr.maxY.length = rdr.noOfDetector)
    (hgeo : ∀ (i : Nat) (a b c d : Int), rdr.minX[i]? = some a → rdr.maxX[i]? = some b →
      rdr.minY[i]? = some c → rdr.maxY[i]? = some d → 0 ≤ nPixel a b c d) :
    (processEvent G (processRunHeader p rdr).proc evt).fault = none ∧
    ∃ pedestal noise status,
      (processEvent G (processRunHeader p rdr).proc evt).evt.collections =
        evt.collections ++
          [(p._pedestalCollectionName, .obj (.TRACKERDATA pedestal)),
            (p._noiseCollectionName, .obj (.TRACKERDATA noise)),
            (p._statusCollectionName, .obj (.TRACKERRAWDATA status))] ∧
      ∀ (i : Nat) (a b c d : Int),
        rdr.minX[i]? = some a → rdr.maxX[i]? = some b →
        rdr.minY[i]? = some c → rdr.maxY[i]? = some d → nPixel a b c d = 0 →
        pedestal[i]?.map (·.chargeValues) = some [] ∧
        noise[i]?.map (·.chargeValues) = some [] ∧
        status[i]?.map (·.adcValues) = some [] := by
  obtain ⟨f1, f2, f3, f4, f5, _, _, _, n1, n2, n3⟩ := processRunHeader_frame p rdr hrun
  obtain ⟨hl1, hl2⟩ := processRunHeader_sizes p rdr hrun
  have hin := processRunHeader_inputs p rdr hrun h1 h2 h3 h4 hgeo
  obtain ⟨s, hs, he⟩ := processEvent_first G (processRunHeader p rdr).proc evt
    (f5.trans hfirst) hevt hin
  rw [he]
  refine ⟨rfl, s.pedestal, s.noise, s.status, ?_, ?_⟩
  · rw [← n1, ← n2, ← n3]
    exact publish_collections _ evt
  · intro i a b c d ha hb hc hd hz
    have hi : i < (processRunHeader p rdr).proc._initPedestal.length := by
      by_contra hge
      rw [List.getElem?_eq_none (by omega)] at ha
      cases ha
    obtain ⟨e1, e2, e3⟩ := built_entry G _ s _ i a b c d
      (processRunHeader p rdr).proc._initPedestal[i]
      (processRunHeader p rdr).proc._initNoise[i] hs hi (by rw [f1]; exact ha)
      (by rw [f2]; exact hb) (by rw [f3]; exact hc) (by rw [f4]; exact hd)
      (List.getElem?_eq_getElem (by omega)) (List.getElem?_eq_getElem (by omega))
    rw [hz] at e1 e2 e3
    rw [e1, e2, e3]
    exact ⟨rfl, rfl, rfl⟩

/-- No pixel count of the geometry with a zero count is negative. -/
theorem zeroCountHeader_nonneg (i : Nat) (a b c d : Int)
    (ha : zeroCountHeader.minX[i]? = some a) (hb : zeroCountHeader.maxX[i]? = some b)
    (hc : zeroCountHeader.minY[i]? = some c) (hd : zeroCountHeader.maxY[i]? = some d) :
    0 ≤ nPixel a b c d := by
  rcases i with _ | _ | i
  · simp [zeroCountHeader] at ha hb hc hd
    subst ha hb hc hd
    decide
  · simp [zeroCountHeader] at ha hb hc hd
    subst ha hb hc hd
    decide
  · simp [zeroCountHeader] at ha

/-- C8, amended, on an example: the detector of bounds `(5, 4, 0, 3)` is published with
zero-length matrices. -/
theorem processEvent_zero_count_witness :
    ∃ pedestal noise status,
      (processEvent 0 (processRunHeader scenarioProcessor zeroCountHeader).proc
        dataEvent).evt.collections =
        [("pedestal", .obj (.TRACKERDATA pedestal)), ("noise", .obj (.TRACKERDATA noise)),
          ("status", .obj (.TRACKERRAWDATA status))] ∧
      pedestal[1]?.map (·.chargeValues) = some [] ∧
      noise[1]?.map (·.chargeValues) = some [] ∧
      status[1]?.map (·.adcValues) = some [] := by
  obtain ⟨_, pedestal, noise, status, e, h⟩ :=
    processEvent_zero_count 0 scenarioProcessor zeroCountHeader dataEvent rfl rfl
      (by decide) rfl rfl rfl rfl zeroCountHeader_nonneg
  exact ⟨pedestal, noise, status, e, h 1 5 4 0 3 rfl rfl rfl rfl (by decide)⟩

/-! ## Events after the build -/

/-- With the flag down, a sequence of events is never stopped: each event that is not the
end-of-run marker receives the collections the processor holds, and the processor keeps
holding them. -/
theorem processEvents_later {V : Type} (G : Int) :
    ∀ (evts : List (EUTelEventImpl V)) (p : EUTelAutoPedestalNoiseProcessor V),
      p._isFirstEvent = false →
      (processEvents G p evts).fault = none ∧
      (processEvents G p evts).evts =
        evts.map (fun e => if e.eventType = .kEORE then e else publish p e) ∧
      (processEvents G p evts).proc._pedestalCollectionVec = p._pedestalCollectionVec ∧
      (processEvents G p evts).proc._noiseCollectionVec = p._noiseCollectionVec ∧
      (processEvents G p evts).proc._statusCollectionVec = p._statusCollectionVec := by
  intro evts
  induction evts with
  | nil =>
    intro p _
    exact ⟨rfl, rfl, rfl, rfl, rfl⟩
  | cons evt rest ih =>
    intro p hfirst
    obtain ⟨i1, i2, i3, i4, i5⟩ := ih { p with _iEvt := p._iEvt + 1 } hfirst
    by_cases hevt : evt.eventType = .kEORE
    · rw [processEvents_cons_none G p _ evt evt rest (processEvent_eore G p evt hevt)]
      refine ⟨i1, ?_, i3, i4, i5⟩
      simp only [List.map_cons, if_pos hevt]
      exact congrArg (List.cons evt) i2
    · rw [processEvents_cons_none G p _ evt _ rest (processEvent_later G p evt hfirst hevt)]
      refine ⟨i1, ?_, i3, i4, i5⟩
      simp only [List.map_cons, if_neg hevt]
      exact congrArg (List.cons (publish p evt)) i2

/-- The first event that is not the end-of-run marker, once the loop is known to go
through. -/
theorem processEvent_first_of_loop {V : Type} (G : Int)
    (p : EUTelAutoPedestalNoiseProcessor V) (evt : EUTelEventImpl V) (s : Sets V)
    (hfirst : p._isFirstEvent = true) (hevt : evt.eventType ≠ .kEORE)
    (hs : buildLoop G p p._initPedestal.length 0 ⟨[], [], []⟩ = (s, none)) :
    processEvent G p evt =
      ⟨{ p with
          _iEvt := p._iEvt + 1
          _pedestalCollectionVec := .obj s.pedestal
          _noiseCollectionVec := .obj s.noise
          _statusCollectionVec := .obj s.status
          _isFirstEvent := false },
        publish { p with
          _pedestalCollectionVec := .obj s.pedestal
          _noiseCollectionVec := .obj s.noise
          _statusCollectionVec := .obj s.status } evt, none⟩ := by
  rw [processEvent_first_eq G p evt hfirst hevt, hs]

/-- With the flag up and a loop that goes through, a sequence of events is never stopped:
each event that is not the end-of-run marker receives the collections the loop builds, and
from the first such event on the processor holds them. -/
theorem processEvents_first {V : Type} (G : Int) (p : EUTelAutoPedestalNoiseProcessor V)
    (s : Sets V) (hfirst : p._isFirstEvent = true)
    (hs : buildLoop G p p._initPedestal.length 0 ⟨[], [], []⟩ = (s, none)) :
    ∀ (evts : List (EUTelEventImpl V)) (n : Nat),
      (processEvents G { p with _iEvt := n } evts).fault = none ∧
      (processEvents G { p with _iEvt := n } evts).evts =
        evts.map (fun e => if e.eventType = .kEORE then e else
          publish { p with
            _pedestalCollectionVec := .obj s.pedestal
            _noiseCollectionVec := .obj s.noise
            _statusCollectionVec := .obj s.status } e) ∧
      ((∃ e, e ∈ evts ∧ e.eventType ≠ .kEORE) →
        (processEvents G { p with _iEvt := n } evts).proc._pedestalCollectionVec =
          .obj s.pedestal ∧
        (processEvents G { p with _iEvt := n } evts).proc._noiseCollectionVec =
          .obj s.noise ∧
        (processEvents G { p with _iEvt := n } evts).proc._statusCollectionVec =
          .obj s.status) := by
  intro evts
  induction evts with
  | nil =>
    intro n
    refine ⟨rfl, rfl, ?_⟩
    rintro ⟨e, he, _⟩
    cases he
  | cons evt rest ih =>
    intro n
    by_cases hevt : evt.eventType = .kEORE
    · rw [processEvents_cons_none G _ _ evt evt rest (processEvent_eore G _ evt hevt)]
      obtain ⟨i1, i2, i3⟩ := ih (n + 1)
      refine ⟨i1, ?_, ?_⟩
      · simp only [List.map_cons, if_pos hevt]
        exact congrArg (List.cons evt) i2
      · rintro ⟨e, he, hne⟩
        rcases List.mem_cons.mp he with h | h
        · rw [h] at hne
          exact absurd hevt hne
        · exact i3 ⟨e, h, hne⟩
    · have hs' : buildLoop G { p with _iEvt := n }
          ({ p with _iEvt := n } : EUTelAutoPedestalNoiseProcessor V)._initPedestal.length 0
          ⟨[], [], []⟩ = (s, none) := by
        rw [buildLoop_iEvt]
        exact hs
      rw [processEvents_cons_none G _ _ evt _ rest
        (processEvent_first_of_loop G { p with _iEvt := n } evt s hfirst hevt hs')]
      obtain ⟨i1, i2, i3, i4, i5⟩ := processEvents_later G rest
        { p with
          _iEvt := n + 1
          _pedestalCollectionVec := .obj s.pedestal
          _noiseCollectionVec := .obj s.noise
          _statusCollectionVec := .obj s.status
          _isFirstEvent := false } rfl
      refine ⟨i1, ?_, fun _ => ⟨i3, i4, i5⟩⟩
      simp only [List.map_cons, if_neg hevt]
      exact congrArg (List.cons _) i2

/-- An event that is not the end-of-run marker and is not stopped leaves the flag down. -/
theorem processEvent_flag_down {V : Type} (G : Int) (p : EUTelAutoPedestalNoiseProcessor V)
    (evt : EUTelEventImpl V) (hevt : evt.eventType ≠ .kEORE)
    (h : (processEvent G p evt).fault = none) :
    (processEvent G p evt).proc._isFirstEvent = false := by
  cases hfirst : p._isFirstEvent with
  | false =>
    rw [processEvent_later G p evt hfirst hevt]
    exact hfirst
  | true =>
    rw [processEvent_first_eq G p evt hfirst hevt] at h ⊢
    cases hb : buildLoop G p p._initPedestal.length 0 ⟨[], [], []⟩ with
    | mk s f =>
      cases f with
      | none => rfl
      | some f =>
        rw [hb] at h
        cases h

/-- C9 fails as stated: after a first run with one detector of four pixels, a second run
start with two detectors does not make the next data event rebuild.  The collections
attached in the second run are those of the first run: one entry of four cells. -/
theorem processEvent_second_run_example :
    (processRunHeader afterFirstRun secondRunHeader).fault = none ∧
    secondRunHeader.noOfDetector = 2 ∧
    (processRunHeader afterFirstRun secondRunHeader).proc._initPedestal = [10, 10] ∧
    (processEvent 0 (processRunHeader afterFirstRun secondRunHeader).proc dataEvent).fault =
      none ∧
    (processEvent 0 (processRunHeader afterFirstRun secondRunHeader).proc
      dataEvent).evt.collections =
      [("pedestal", .obj (.TRACKERDATA [⟨⟨0, 0, 0, 1, 1⟩, [10, 10, 10, 10]⟩])),
        ("noise", .obj (.TRACKERDATA [⟨⟨0, 0, 0, 1, 1⟩, [3 / 2, 3 / 2, 3 / 2, 3 / 2]⟩])),
        ("status", .obj (.TRACKERRAWDATA [⟨⟨0, 0, 0, 1, 1⟩, [0, 0, 0, 0]⟩]))] :=
  ⟨rfl, rfl, rfl, rfl, rfl⟩

/-- C9, amended: the flag is not raised by a run start, and the build happens once per
session.  When a data event of a first run has gone through and a second run start has
returned, a data event of the second run is not stopped, leaves the three collection
pointers as the first run left them, and receives those collections, whatever the
detector count and the bounds of the second run. -/
theorem processEvent_second_run {V : Type} (G : Int)
    (p : EUTelAutoPedestalNoiseProcessor V) (evt1 evt2 : EUTelEventImpl V)
    (rdr2 : EUTelRunHeaderImpl)
    (hevt1 : evt1.eventType ≠ .kEORE) (hok1 : (processEvent G p evt1).fault = none)
    (hrun2 : (processRunHeader (processEvent G p evt1).proc rdr2).fault = none)
    (hevt2 : evt2.eventType ≠ .kEORE) :
    (processRunHeader (processEvent G p evt1).proc rdr2).proc._isFirstEvent = false ∧
    (processEvent G (processRunHeader (processEvent G p evt1).proc rdr2).proc evt2).fault =
      none ∧
    (processEvent G (processRunHeader (processEvent G p evt1).proc rdr2).proc
      evt2).proc._pedestalCollectionVec = (processEvent G p evt1).proc._pedestalCollectionVec ∧
    (processEvent G (processRunHeader (processEvent G p evt1).proc rdr2).proc
      evt2).proc._noiseCollectionVec = (processEvent G p evt1).proc._noiseCollectionVec ∧
    (processEvent G (processRunHeader (processEvent G p evt1).proc rdr2).proc
      evt2).proc._statusCollectionVec = (processEvent G p evt1).proc._statusCollectionVec ∧
    (processEvent G (processRunHeader (processEvent G p evt1).proc rdr2).proc
      evt2).evt.collections =
      evt2.collections ++
        [(p._pedestalCollectionName,
            asTrackerData (processEvent G p evt1).proc._pedestalCollectionVec),
          (p._noiseCollectionName,
            asTrackerData (processEvent G p evt1).proc._noiseCollectionVec),
          (p._statusCollectionName,
            asTrackerRawData (processEvent G p evt1).proc._statusCollectionVec)] := by
  have hdown := processEvent_flag_down G p evt1 hevt1 hok1
  obtain ⟨_, _, _, _, f5, f6, f7, f8, n1, n2, n3⟩ :=
    processRunHeader_frame (processEvent G p evt1).proc rdr2 hrun2
  have hnames : (processEvent G p evt1).proc._pedestalCollectionName =
        p._pedestalCollectionName ∧
      (processEvent G p evt1).proc._noiseCollectionName = p._noiseCollectionName ∧
      (processEvent G p evt1).proc._statusCollectionName = p._statusCollectionName := by
    cases hfirst : p._isFirstEvent with
    | false =>
      rw [processEvent_later G p evt1 hfirst hevt1]
      exact ⟨rfl, rfl, rfl⟩
    | true =>
      rw [processEvent_first_eq G p evt1 hfirst hevt1]
      cases hb : buildLoop G p p._initPedestal.length 0 ⟨[], [], []⟩ with
      | mk s f =>
        cases f with
        | none => exact ⟨rfl, rfl, rfl⟩
        | some f => exact ⟨rfl, rfl, rfl⟩
  have hq := f5.trans hdown
  rw [processEvent_later G _ evt2 hq hevt2]
  refine ⟨hq, rfl, f6, f7, f8, ?_⟩
  rw [publish_collections, f6, f7, f8, n1, n2, n3, hnames.1, hnames.2.1, hnames.2.2]

/-- C9, amended, on an example: the second run of the scenario processor, with two
detectors, publishes the single entry of four cells built in the first run. -/
theorem processEvent_second_run_witness :
    (processEvent 0 (processRunHeader afterFirstRun secondRunHeader).proc
      dataEvent).proc._pedestalCollectionVec =
      .obj [⟨⟨0, 0, 0, 1, 1⟩, [10, 10, 10, 10]⟩] ∧
    (processEvent 0 (processRunHeader afterFirstRun secondRunHeader).proc
      dataEvent).evt.collections =
      [("pedestal", .obj (.TRACKERDATA [⟨⟨0, 0, 0, 1, 1⟩, [10, 10, 10, 10]⟩])),
        ("noise", .obj (.TRACKERDATA [⟨⟨0, 0, 0, 1, 1⟩, [3 / 2, 3 / 2, 3 / 2, 3 / 2]⟩])),
        ("status", .obj (.TRACKERRAWDATA [⟨⟨0, 0, 0, 1, 1⟩, [0, 0, 0, 0]⟩]))] :=
  have h := processEvent_second_run 0 (processRunHeader scenarioProcessor firstRunHeader).proc
    dataEvent dataEvent secondRunHeader (by decide) rfl rfl (by decide)
  ⟨h.2.2.1, h.2.2.2.2.2⟩

/-- Every sequence of events, on a state in which the build cannot be stopped: there are
three collection pointers that every event other than the end-of-run marker receives, and
that the processor holds after any such event. -/
theorem processEvents_same_sets {V : Type} (G : Int)
    (p : EUTelAutoPedestalNoiseProcessor V)
    (hready : p._isFirstEvent = true → ∀ j, j < p._initPedestal.length → InputAt p j) :
    ∃ pedestal noise status, ∀ evts : List (EUTelEventImpl V),
      (processEvents G p evts).fault = none ∧
      (processEvents G p evts).evts =
        evts.map (fun e => if e.eventType = .kEORE then e else
          publish { p with
            _pedestalCollectionVec := pedestal
            _noiseCollectionVec := noise
            _statusCollectionVec := status } e) ∧
      ((∃ e, e ∈ evts ∧ e.eventType ≠ .kEORE) →
        (processEvents G p evts).proc._pedestalCollectionVec = pedestal ∧
        (processEvents G p evts).proc._noiseCollectionVec = noise ∧
        (processEvents G p evts).proc._statusCollectionVec = status) := by
  cases hfirst : p._isFirstEvent with
  | false =>
    refine ⟨p._pedestalCollectionVec, p._noiseCollectionVec, p._statusCollectionVec, ?_⟩
    intro evts
    obtain ⟨i1, i2, i3, i4, i5⟩ := processEvents_later G evts p hfirst
    exact ⟨i1, i2, fun _ => ⟨i3, i4, i5⟩⟩
  | true =>
    have h0 : Built G p ⟨[], [], []⟩ 0 :=
      ⟨rfl, rfl, rfl, fun i hi => absurd hi (Nat.not_lt_zero i)⟩
    obtain ⟨s, hs, _⟩ := buildLoop_built G p p._initPedestal.length 0 ⟨[], [], []⟩ h0
      (fun j _ hj => hready hfirst j (by omega))
    refine ⟨.obj s.pedestal, .obj s.noise, .obj s.status, ?_⟩
    intro evts
    exact processEvents_first G p s hfirst hs evts p._iEvt

/-- With the flag down no build is run: whatever value lists, bounds and collection
pointers the state holds, an event is not stopped and changes nothing in the processor but
the event counter. -/
theorem processEvent_flag_down_frame {V : Type} (G : Int)
    (s : EUTelAutoPedestalNoiseProcessor V) (e : EUTelEventImpl V)
    (hdown : s._isFirstEvent = false) :
    (processEvent G s e).fault = none ∧
    (processEvent G s e).proc = { s with _iEvt := s._iEvt + 1 } := by
  by_cases hevt : e.eventType = .kEORE
  · rw [processEvent_eore G s e hevt]
    exact ⟨rfl, rfl⟩
  · rw [processEvent_later G s e hdown hevt]
    exact ⟨rfl, rfl⟩

/-- With the flag down, a sequence of events leaves the flag down. -/
theorem processEvents_later_flag {V : Type} (G : Int) :
    ∀ (evts : List (EUTelEventImpl V)) (p : EUTelAutoPedestalNoiseProcessor V),
      p._isFirstEvent = false → (processEvents G p evts).proc._isFirstEvent = false := by
  intro evts
  induction evts with
  | nil =>
    intro p hdown
    exact hdown
  | cons evt rest ih =>
    intro p hdown
    by_cases hevt : evt.eventType = .kEORE
    · rw [processEvents_cons_none G p _ evt evt rest (processEvent_eore G p evt hevt)]
      exact ih { p with _iEvt := p._iEvt + 1 } hdown
    · rw [processEvents_cons_none G p _ evt _ rest (processEvent_later G p evt hdown hevt)]
      exact ih { p with _iEvt := p._iEvt + 1 } hdown

/-- With the flag up and a loop that goes through, a sequence of events that holds an
event other than the end-of-run marker leaves the flag down. -/
theorem processEvents_first_flag {V : Type} (G : Int)
    (p : EUTelAutoPedestalNoiseProcessor V) (s : Sets V) (hfirst : p._isFirstEvent = true)
    (hs : buildLoop G p p._initPedestal.length 0 ⟨[], [], []⟩ = (s, none)) :
    ∀ (evts : List (EUTelEventImpl V)) (n : Nat),
      (∃ e, e ∈ evts ∧ e.eventType ≠ .kEORE) →
      (processEvents G { p with _iEvt := n } evts).proc._isFirstEvent = false := by
  intro evts
  induction evts with
  | nil =>
    intro n
    rintro ⟨e, he, _⟩
    cases he
  | cons evt rest ih =>
    intro n
    rintro ⟨e, he, hne⟩
    by_cases hevt : evt.eventType = .kEORE
    · rw [processEvents_cons_none G _ _ evt evt rest (processEvent_eore G _ evt hevt)]
      rcases List.mem_cons.mp he with h | h
      · rw [h] at hne
        exact absurd hevt hne
      · exact ih (n + 1) ⟨e, h, hne⟩
    · have hs' : buildLoop G { p with _iEvt := n }
          ({ p with _iEvt := n } : EUTelAutoPedestalNoiseProcessor V)._initPedestal.length 0
          ⟨[], [], []⟩ = (s, none) := by
        rw [buildLoop_iEvt]
        exact hs
      rw [processEvents_cons_none G _ _ evt _ rest
        (processEvent_first_of_loop G { p with _iEvt := n } evt s hfirst hevt hs')]
      exact processEvents_later_flag G rest _ rfl

/-- On a state in which the build cannot be stopped, a sequence of events that holds an
event other than the end-of-run marker leaves the flag down. -/
theorem processEvents_flag_down {V : Type} (G : Int)
    (p : EUTelAutoPedestalNoiseProcessor V)
    (hready : p._isFirstEvent = true → ∀ j, j < p._initPedestal.length → InputAt p j)
    (evts : List (EUTelEventImpl V)) (h : ∃ e, e ∈ evts ∧ e.eventType ≠ .kEORE) :
    (processEvents G p evts).proc._isFirstEvent = false := by
  by_cases hfirst : p._isFirstEvent = true
  · have h0 : Built G p ⟨[], [], []⟩ 0 :=
      ⟨rfl, rfl, rfl, fun i hi => absurd hi (Nat.not_lt_zero i)⟩
    obtain ⟨s, hs, _⟩ := buildLoop_built G p p._initPedestal.length 0 ⟨[], [], []⟩ h0
      (fun j _ hj => hready hfirst j (by omega))
    exact processEvents_first_flag G p s hfirst hs evts p._iEvt h
  · have hdown : p._isFirstEvent = false := by simpa using hfirst
    exact processEvents_later_flag G evts p hdown

/-- C10: at most one build within a run.  After a run start that returned and after which
the build cannot be stopped (the flag is down, or the bound arrays have one entry per
detector and no pixel count is negative), no sequence of events is stopped, and there are
three collections such that every event of the sequence other than the end-of-run marker
receives exactly these under the three configured names, and such that at any point of the
sequence after such an event the processor holds exactly these, the first-event flag is
down, and whatever event comes next is not stopped and changes nothing in the processor
but the event counter.  The build is gated by the flag alone: in every state with the flag
down, whatever value lists, bounds and collection pointers it holds, an event is not
stopped and changes nothing in the processor but the event counter. -/
theorem processEvents_build_once {V : Type} (G : Int)
    (p : EUTelAutoPedestalNoiseProcessor V) (rdr : EUTelRunHeaderImpl)
    (evts : List (EUTelEventImpl V))
    (hrun : (processRunHeader p rdr).fault = none)
    (hready : p._isFirstEvent = true →
      rdr.minX.length = rdr.noOfDetector ∧ rdr.maxX.length = rdr.noOfDetector ∧
      rdr.minY.length = rdr.noOfDetector ∧ rdr.maxY.length = rdr.noOfDetector ∧
      ∀ (i : Nat) (a b c d : Int), rdr.minX[i]? = some a → rdr.maxX[i]? = some b →
        rdr.minY[i]? = some c → rdr.maxY[i]? = some d → 0 ≤ nPixel a b c d) :
    (processEvents G (processRunHeader p rdr).proc evts).fault = none ∧
    (processEvents G (processRunHeader p rdr).proc evts).evts.length = evts.length ∧
    (∃ pedestal noise status,
      ∀ (k : Nat) (e : EUTelEventImpl V), evts[k]? = some e → e.eventType ≠ .kEORE →
        (processEvents G (processRunHeader p rdr).proc evts).evts[k]?.map (·.collections) =
          some (e.collections ++
            [(p._pedestalCollectionName, asTrackerData pedestal),
              (p._noiseCollectionName, asTrackerData noise),
              (p._statusCollectionName, asTrackerRawData status)]) ∧
        ∀ m, k < m →
          (processEvents G (processRunHeader p rdr).proc
            (evts.take m)).proc._pedestalCollectionVec = pedestal ∧
          (processEvents G (processRunHeader p rdr).proc
            (evts.take m)).proc._noiseCollectionVec = noise ∧
          (processEvents G (processRunHeader p rdr).proc
            (evts.take m)).proc._statusCollectionVec = status ∧
          (processEvents G (processRunHeader p rdr).proc
            (evts.take m)).proc._isFirstEvent = false ∧
          ∀ next : EUTelEventImpl V,
            (processEvent G (processEvents G (processRunHeader p rdr).proc
              (evts.take m)).proc next).fault = none ∧
            (processEvent G (processEvents G (processRunHeader p rdr).proc
              (evts.take m)).proc next).proc =
              { (processEvents G (processRunHeader p rdr).proc (evts.take m)).proc with
                _iEvt := (processEvents G (processRunHeader p rdr).proc
                  (evts.take m)).proc._iEvt + 1 }) ∧
    ∀ (s : EUTelAutoPedestalNoiseProcessor V) (e : EUTelEventImpl V),
      s._isFirstEvent = false →
      (processEvent G s e).fault = none ∧
      (processEvent G s e).proc = { s with _iEvt := s._iEvt + 1 } := by
  obtain ⟨_, _, _, _, f5, _, _, _, n1, n2, n3⟩ := processRunHeader_frame p rdr hrun
  have hin : (processRunHeader p rdr).proc._isFirstEvent = true →
      ∀ j, j < (processRunHeader p rdr).proc._initPedestal.length →
        InputAt (processRunHeader p rdr).proc j := by
    intro hq
    obtain ⟨h1, h2, h3, h4, hgeo⟩ := hready (f5.symm.trans hq)
    exact processRunHeader_inputs p rdr hrun h1 h2 h3 h4 hgeo
  obtain ⟨pedestal, noise, status, hall⟩ :=
    processEvents_same_sets G (processRunHeader p rdr).proc hin
  obtain ⟨hf, hmap, _⟩ := hall evts
  refine ⟨hf, ?_, ⟨pedestal, noise, status, ?_⟩,
    fun s e hdown => processEvent_flag_down_frame G s e hdown⟩
  · rw [hmap, List.length_map]
  · intro k e hk hne
    constructor
    · rw [hmap, List.getElem?_map, hk]
      simp only [Option.map_some', if_neg hne]
      rw [publish_collections, n1, n2, n3]
    · intro m hkm
      have hmem : e ∈ evts.take m :=
        List.getElem?_mem ((List.getElem?_take_of_lt hkm).trans hk)
      obtain ⟨e1, e2, e3⟩ := (hall (evts.take m)).2.2 ⟨e, hmem, hne⟩
      have hdown := processEvents_flag_down G (processRunHeader p rdr).proc hin
        (evts.take m) ⟨e, hmem, hne⟩
      exact ⟨e1, e2, e3, hdown, fun next => processEvent_flag_down_frame G _ next hdown⟩

/-- C10 on the end-to-end scenario of the specification: a data event, an end-of-run event
and two more data events are all gone through, the three data events receive the same
three collections, the processor holds them with the flag down after the first event as
after the last, and a further data event changes nothing but the event counter. -/
theorem processEvents_build_once_witness :
    (processEvents 0 (processRunHeader scenarioProcessor scenarioHeader).proc
      [dataEvent, eoreEvent, dataEvent, dataEvent]).fault = none ∧
    (processEvents 0 (processRunHeader scenarioProcessor scenarioHeader).proc
      [dataEvent, eoreEvent, dataEvent, dataEvent]).evts.length = 4 ∧
    ∃ pedestal noise status,
      (processEvents 0 (processRunHeader scenarioProcessor scenarioHeader).proc
        [dataEvent, eoreEvent, dataEvent, dataEvent]).evts[0]?.map (·.collections) =
        some [("pedestal", asTrackerData pedestal), ("noise", asTrackerData noise),
          ("status", asTrackerRawData status)] ∧
      (processEvents 0 (processRunHeader scenarioProcessor scenarioHeader).proc
        [dataEvent, eoreEvent, dataEvent, dataEvent]).evts[3]?.map (·.collections) =
        some [("pedestal", asTrackerData pedestal), ("noise", asTrackerData noise),
          ("status", asTrackerRawData status)] ∧
      (processEvents 0 (processRunHeader scenarioProcessor scenarioHeader).proc
        [dataEvent, eoreEvent, dataEvent, dataEvent]).proc._pedestalCollectionVec =
        pedestal ∧
      (processEvents 0 (processRunHeader scenarioProcessor scenarioHeader).proc
        [dataEvent]).proc._pedestalCollectionVec = pedestal ∧
      (processEvents 0 (processRunHeader scenarioProcessor scenarioHeader).proc
        [dataEvent]).proc._isFirstEvent = false ∧
      (processEvents 0 (processRunHeader scenarioProcessor scenarioHeader).proc
        [dataEvent, eoreEvent, dataEvent, dataEvent]).proc._isFirstEvent = false ∧
      (processEvent 0 (processEvents 0 (processRunHeader scenarioProcessor
        scenarioHeader).proc [dataEvent, eoreEvent, dataEvent, dataEvent]).proc
        dataEvent).proc =
        { (processEvents 0 (processRunHeader scenarioProcessor scenarioHeader).proc
            [dataEvent, eoreEvent, dataEvent, dataEvent]).proc with
          _iEvt := (processEvents 0 (processRunHeader scenarioProcessor scenarioHeader).proc
            [dataEvent, eoreEvent, dataEvent, dataEvent]).proc._iEvt + 1 } := by
  obtain ⟨hf, hl, ⟨pedestal, noise, status, h⟩, _⟩ :=
    processEvents_build_once 0 scenarioProcessor scenarioHeader
      [dataEvent, eoreEvent, dataEvent, dataEvent] rfl
      (fun _ => ⟨rfl, rfl, rfl, rfl, scenarioHeader_nonneg⟩)
  have h0 := h 0 dataEvent rfl (by decide)
  have h3 := h 3 dataEvent rfl (by decide)
  exact ⟨hf, hl, pedestal, noise, status, h0.1, h3.1, (h0.2 4 (by decide)).1,
    (h0.2 1 (by decide)).1, (h0.2 1 (by decide)).2.2.2.1, (h0.2 4 (by decide)).2.2.2.1,
    ((h0.2 4 (by decide)).2.2.2.2 dataEvent).2⟩

/-! ## The end-of-run marker -/

/-- The event counter has no influence on what `processEvent` does to the event, the
collections and the flag. -/
theorem processEvent_iEvt {V : Type} (G : Int) (p : EUTelAutoPedestalNoiseProcessor V)
    (evt : EUTelEventImpl V) (n : Nat) :
    (processEvent G { p with _iEvt := n } evt).evt = (processEvent G p evt).evt ∧
    (processEvent G { p with _iEvt := n } evt).fault = (processEvent G p evt).fault ∧
    (processEvent G { p with _iEvt := n } evt).proc._pedestalCollectionVec =
      (processEvent G p evt).proc._pedestalCollectionVec ∧
    (processEvent G { p with _iEvt := n } evt).proc._noiseCollectionVec =
      (processEvent G p evt).proc._noiseCollectionVec ∧
    (processEvent G { p with _iEvt := n } evt).proc._statusCollectionVec =
      (processEvent G p evt).proc._statusCollectionVec ∧
    (processEvent G { p with _iEvt := n } evt).proc._isFirstEvent =
      (processEvent G p evt).proc._isFirstEvent := by
  by_cases hevt : evt.eventType = .kEORE
  · rw [processEvent_eore G _ evt hevt, processEvent_eore G p evt hevt]
    exact ⟨rfl, rfl, rfl, rfl, rfl, rfl⟩
  · by_cases hfirst : p._isFirstEvent = true
    · rw [processEvent_first_eq G { p with _iEvt := n } evt hfirst hevt,
        processEvent_first_eq G p evt hfirst hevt]
      have hl : buildLoop G { p with _iEvt := n }
          ({ p with _iEvt := n } : EUTelAutoPedestalNoiseProcessor V)._initPedestal.length 0
          ⟨[], [], []⟩ = buildLoop G p p._initPedestal.length 0 ⟨[], [], []⟩ :=
        buildLoop_iEvt G p n _ 0 _
      rw [hl]
      cases buildLoop G p p._initPedestal.length 0 ⟨[], [], []⟩ with
      | mk s f =>
        cases f with
        | none => exact ⟨rfl, rfl, rfl, rfl, rfl, rfl⟩
        | some f => exact ⟨rfl, rfl, rfl, rfl, rfl, rfl⟩
    · have hdown : p._isFirstEvent = false := by simpa using hfirst
      rw [processEvent_later G { p with _iEvt := n } evt hdown hevt,
        processEvent_later G p evt hdown hevt]
      exact ⟨rfl, rfl, rfl, rfl, rfl, rfl⟩

/-- C11: the end-of-run marker is a no-op for publishing.  In every state, an event of
kind `kEORE` is not stopped, comes out as it went in (no collection attached), and leaves
the three collection pointers and the first-event flag as they were; the event processed
next is therefore treated exactly as if the marker had not been seen: same event, same
fault, same collections and same flag, so that a pending build is still performed. -/
theorem processEvent_eore_noop {V : Type} (G : Int) (p : EUTelAutoPedestalNoiseProcessor V)
    (evt : EUTelEventImpl V) (h : evt.eventType = .kEORE) :
    (processEvent G p evt).fault = none ∧
    (processEvent G p evt).evt = evt ∧
    (processEvent G p evt).proc._pedestalCollectionVec = p._pedestalCollectionVec ∧
    (processEvent G p evt).proc._noiseCollectionVec = p._noiseCollectionVec ∧
    (processEvent G p evt).proc._statusCollectionVec = p._statusCollectionVec ∧
    (processEvent G p evt).proc._isFirstEvent = p._isFirstEvent ∧
    ∀ next : EUTelEventImpl V,
      (processEvent G (processEvent G p evt).proc next).evt = (processEvent G p next).evt ∧
      (processEvent G (processEvent G p evt).proc next).fault =
        (processEvent G p next).fault ∧
      (processEvent G (processEvent G p evt).proc next).proc._pedestalCollectionVec =
        (processEvent G p next).proc._pedestalCollectionVec ∧
      (processEvent G (processEvent G p evt).proc next).proc._noiseCollectionVec =
        (processEvent G p next).proc._noiseCollectionVec ∧
      (processEvent G (processEvent G p evt).proc next).proc._statusCollectionVec =
        (processEvent G p next).proc._statusCollectionVec ∧
      (processEvent G (processEvent G p evt).proc next).proc._isFirstEvent =
        (processEvent G p next).proc._isFirstEvent := by
  rw [processEvent_eore G p evt h]
  refine ⟨rfl, rfl, rfl, rfl, rfl, rfl, ?_⟩
  intro next
  exact processEvent_iEvt G p next (p._iEvt + 1)

/-- C11 on the end-to-end scenario of the specification: an end-of-run event that arrives
first leaves the flag up and nothing attached, and the data event after it is handed the
built collections. -/
theorem processEvent_eore_noop_witness :
    (processEvent 0 (processRunHeader scenarioProcessor scenarioHeader).proc
      eoreEvent).evt = eoreEvent ∧
    (processEvent 0 (processRunHeader scenarioProcessor scenarioHeader).proc
      eoreEvent).proc._isFirstEvent = true ∧
    (processEvent 0 (processEvent 0 (processRunHeader scenarioProcessor scenarioHeader).proc
      eoreEvent).proc dataEvent).evt.collections =
      [("pedestal", .obj (.TRACKERDATA
          [⟨⟨0, 0, 0, 1, 1⟩, [10, 10, 10, 10]⟩, ⟨⟨1, 0, 0, 2, 0⟩, [10, 10, 10]⟩])),
        ("noise", .obj (.TRACKERDATA
          [⟨⟨0, 0, 0, 1, 1⟩, [3 / 2, 3 / 2, 3 / 2, 3 / 2]⟩,
            ⟨⟨1, 0, 0, 2, 0⟩, [3 / 2, 3 / 2, 3 / 2]⟩])),
        ("status", .obj (.TRACKERRAWDATA
          [⟨⟨0, 0, 0, 1, 1⟩, [0, 0, 0, 0]⟩, ⟨⟨1, 0, 0, 2, 0⟩, [0, 0, 0]⟩]))] :=
  have h := processEvent_eore_noop 0 (processRunHeader scenarioProcessor scenarioHeader).proc
    eoreEvent rfl
  ⟨h.2.1, h.2.2.2.2.2.1, congrArg (·.collections) (h.2.2.2.2.2.2 dataEvent).1⟩

/-! ## A run without detectors -/

/-- With a detector count of zero the resize of lines 101 to 109 always goes through and
leaves the list empty. -/
theorem resizeInit_zero {V : Type} (v : List V) : resizeInit 0 v = .ok [] := by
  by_cases hv : v = []
  · subst hv
    rfl
  · rw [resizeInit_of_ne_nil 0 v hv]
    have hne : (0 : Nat) ≠ v.length := fun h => hv (List.length_eq_zero.mp h.symm)
    rw [if_pos hne]
    simp [resize]

/-- C12: zero detectors is not an error.  For every configured pedestal and noise list, a
run start with detector count 0 returns and leaves both lists empty; with the build still
to be done, a data event is not stopped and builds three empty collections, and in every
sequence of events none is stopped and each event other than the end-of-run marker
receives the three empty collections under the configured names. -/
theorem processRunHeader_zero_detectors {V : Type} (G : Int)
    (p : EUTelAutoPedestalNoiseProcessor V) (rdr : EUTelRunHeaderImpl)
    (hzero : rdr.noOfDetector = 0) :
    (processRunHeader p rdr).fault = none ∧
    (processRunHeader p rdr).proc._initPedestal = [] ∧
    (processRunHeader p rdr).proc._initNoise = [] ∧
    (p._isFirstEvent = true →
      (∀ evt : EUTelEventImpl V, evt.eventType ≠ .kEORE →
        (processEvent G (processRunHeader p rdr).proc evt).fault = none ∧
        (processEvent G (processRunHeader p rdr).proc evt).proc._pedestalCollectionVec =
          .obj [] ∧
        (processEvent G (processRunHeader p rdr).proc evt).proc._noiseCollectionVec =
          .obj [] ∧
        (processEvent G (processRunHeader p rdr).proc evt).proc._statusCollectionVec =
          .obj []) ∧
      ∀ evts : List (EUTelEventImpl V),
        (processEvents G (processRunHeader p rdr).proc evts).fault = none ∧
        ∀ (k : Nat) (e : EUTelEventImpl V), evts[k]? = some e → e.eventType ≠ .kEORE →
          (processEvents G (processRunHeader p rdr).proc evts).evts[k]?.map
            (·.collections) =
            some (e.collections ++
              [(p._pedestalCollectionName, .obj (.TRACKERDATA [])),
                (p._noiseCollectionName, .obj (.TRACKERDATA [])),
                (p._statusCollectionName, .obj (.TRACKERRAWDATA []))])) := by
  have hw : resizeInit rdr.noOfDetector p._initPedestal = .ok [] := by
    rw [hzero]
    exact resizeInit_zero _
  have hu : resizeInit rdr.noOfDetector p._initNoise = .ok [] := by
    rw [hzero]
    exact resizeInit_zero _
  have hrun : (processRunHeader p rdr).fault = none := by
    rw [processRunHeader_ok p rdr [] [] hw hu]
  have hped : (processRunHeader p rdr).proc._initPedestal = [] := by
    rw [processRunHeader_ok p rdr [] [] hw hu]
  have hnoise : (processRunHeader p rdr).proc._initNoise = [] := by
    rw [processRunHeader_ok p rdr [] [] hw hu]
  obtain ⟨_, _, _, _, f5, _, _, _, n1, n2, n3⟩ := processRunHeader_frame p rdr hrun
  have hs : buildLoop G (processRunHeader p rdr).proc
      (processRunHeader p rdr).proc._initPedestal.length 0 ⟨[], [], []⟩ =
      (⟨[], [], []⟩, none) := by
    rw [hped]
    rfl
  refine ⟨hrun, hped, hnoise, ?_⟩
  intro hfirst
  have hq := f5.trans hfirst
  constructor
  · intro evt hevt
    rw [processEvent_first_of_loop G _ evt ⟨[], [], []⟩ hq hevt hs]
    exact ⟨rfl, rfl, rfl, rfl⟩
  · intro evts
    obtain ⟨hf, hmap, _⟩ := processEvents_first G (processRunHeader p rdr).proc ⟨[], [], []⟩
      hq hs evts (processRunHeader p rdr).proc._iEvt
    refine ⟨hf, ?_⟩
    intro k e hk hne
    have hmap' : (processEvents G (processRunHeader p rdr).proc evts).evts =
        evts.map (fun e => if e.eventType = .kEORE then e else
          publish { (processRunHeader p rdr).proc with
            _pedestalCollectionVec := .obj []
            _noiseCollectionVec := .obj []
            _statusCollectionVec := .obj [] } e) := hmap
    rw [hmap', List.getElem?_map, hk]
    simp only [Option.map_some', if_neg hne]
    rw [publish_collections]
    show some (e.collections ++
      [((processRunHeader p rdr).proc._pedestalCollectionName, .obj (.TRACKERDATA [])),
        ((processRunHeader p rdr).proc._noiseCollectionName, .obj (.TRACKERDATA [])),
        ((processRunHeader p rdr).proc._statusCollectionName, .obj (.TRACKERRAWDATA []))]) = _
    rw [n1, n2, n3]

/-- C12 on an example: the scenario processor, configured with two values per list, in a
run without detectors; a data event, an end-of-run event and another data event. -/
theorem processRunHeader_zero_detectors_witness :
    (processRunHeader scenarioProcessor (headerOfCount 0)).fault = none ∧
    (processEvents 0 (processRunHeader scenarioProcessor (headerOfCount 0)).proc
      [dataEvent, eoreEvent, dataEvent]).fault = none ∧
    (processEvents 0 (processRunHeader scenarioProcessor (headerOfCount 0)).proc
      [dataEvent, eoreEvent, dataEvent]).evts[2]?.map (·.collections) =
      some [("pedestal", .obj (.TRACKERDATA [])), ("noise", .obj (.TRACKERDATA [])),
        ("status", .obj (.TRACKERRAWDATA []))] :=
  have h := processRunHeader_zero_detectors 0 scenarioProcessor (headerOfCount 0) rfl
  ⟨h.1, ((h.2.2.2 rfl).2 [dataEvent, eoreEvent, dataEvent]).1,
    ((h.2.2.2 rfl).2 [dataEvent, eoreEvent, dataEvent]).2 2 dataEvent rfl (by decide)⟩

/-! ## Events of unknown kind -/

/-- C13: an event of unknown kind is handled as a data event.  In every state, an event
processed with the kind `kUNKNOWN` and the same event processed with the kind `kDE` leave
the same processor state and the same fault, and the same collections are attached under
the same names (and taken back in the same order). -/
theorem processEvent_unknown_as_data {V : Type} (G : Int)
    (p : EUTelAutoPedestalNoiseProcessor V) (evt : EUTelEventImpl V) :
    (processEvent G p { evt with eventType := .kUNKNOWN }).proc =
      (processEvent G p { evt with eventType := .kDE }).proc ∧
    (processEvent G p { evt with eventType := .kUNKNOWN }).fault =
      (processEvent G p { evt with eventType := .kDE }).fault ∧
    (processEvent G p { evt with eventType := .kUNKNOWN }).evt.collections =
      (processEvent G p { evt with eventType := .kDE }).evt.collections ∧
    (processEvent G p { evt with eventType := .kUNKNOWN }).evt.taken =
      (processEvent G p { evt with eventType := .kDE }).evt.taken ∧
    (processEvent G p { evt with eventType := .kUNKNOWN }).evt.eventType = .kUNKNOWN := by
  have hu : ({ evt with eventType := .kUNKNOWN } : EUTelEventImpl V).eventType ≠ .kEORE := by
    intro h
    cases h
  have hd : ({ evt with eventType := .kDE } : EUTelEventImpl V).eventType ≠ .kEORE := by
    intro h
    cases h
  by_cases hfirst : p._isFirstEvent = true
  · rw [processEvent_first_eq G p _ hfirst hu, processEvent_first_eq G p _ hfirst hd]
    cases buildLoop G p p._initPedestal.length 0 ⟨[], [], []⟩ with
    | mk s f =>
      cases f with
      | none => exact ⟨rfl, rfl, rfl, rfl, rfl⟩
      | some f => exact ⟨rfl, rfl, rfl, rfl, rfl⟩
  · have hdown : p._isFirstEvent = false := by simpa using hfirst
    rw [processEvent_later G p _ hdown hu, processEvent_later G p _ hdown hd]
    exact ⟨rfl, rfl, rfl, rfl, rfl⟩

/-! ## The end of the session -/

/-- C14 fails as stated: at the end of a session in which the collections have been built,
`end` deletes the three collections but leaves the first-event flag down. -/
theorem end_keeps_flag_example :
    afterFirstRun._isFirstEvent = false ∧
    afterFirstRun._pedestalCollectionVec = .obj [⟨⟨0, 0, 0, 1, 1⟩, [10, 10, 10, 10]⟩] ∧
    («end» afterFirstRun)._pedestalCollectionVec = .deleted ∧
    («end» afterFirstRun)._isFirstEvent = false ∧
    («end» afterFirstRun)._isFirstEvent ≠ true :=
  ⟨rfl, rfl, rfl, rfl, by decide⟩

/-- C14, amended: the session end releases the three collections and nothing else.  In
every state, after `end` the three collections are deleted, and the first-event flag, the
value lists, the bounds, the names and the counters are as they were: a processor whose
collections have been built is not back in the not-yet-built state. -/
theorem end_releases_only {V : Type} (p : EUTelAutoPedestalNoiseProcessor V) :
    («end» p)._pedestalCollectionVec = .deleted ∧
    («end» p)._noiseCollectionVec = .deleted ∧
    («end» p)._statusCollectionVec = .deleted ∧
    («end» p)._isFirstEvent = p._isFirstEvent ∧
    («end» p)._initPedestal = p._initPedestal ∧
    («end» p)._initNoise = p._initNoise ∧
    («end» p)._minX = p._minX ∧ («end» p)._maxX = p._maxX ∧
    («end» p)._minY = p._minY ∧ («end» p)._maxY = p._maxY ∧
    («end» p)._pedestalCollectionName = p._pedestalCollectionName ∧
    («end» p)._noiseCollectionName = p._noiseCollectionName ∧
    («end» p)._statusCollectionName = p._statusCollectionName ∧
    («end» p)._iRun = p._iRun ∧ («end» p)._iEvt = p._iEvt :=
  ⟨rfl, rfl, rfl, rfl, rfl, rfl, rfl, rfl, rfl, rfl, rfl, rfl, rfl, rfl, rfl⟩

/-! ## Index safety of the build -/

/-- A run start on two non-empty value lists returns. -/
theorem processRunHeader_of_ne_nil {V : Type} (p : EUTelAutoPedestalNoiseProcessor V)
    (rdr : EUTelRunHeaderImpl) (hped : p._initPedestal ≠ []) (hnoise : p._initNoise ≠ []) :
    (processRunHeader p rdr).fault = none := by
  rw [processRunHeader_ok p rdr _ _ (resizeInit_of_ne_nil _ _ hped)
    (resizeInit_of_ne_nil _ _ hnoise)]

/-- C15: index safety of the build loop.  After a run start on non-empty pedestal and
noise lists whose four bound arrays have exactly `noOfDetector` entries each, the run
start returns, every index below the size of the pedestal list, over which the loop runs,
is below the size of the noise list and of the four bound arrays, and no event is stopped
by an index out of range. -/
theorem build_indices_in_range {V : Type} (G : Int)
    (p : EUTelAutoPedestalNoiseProcessor V) (rdr : EUTelRunHeaderImpl)
    (hped : p._initPedestal ≠ []) (hnoise : p._initNoise ≠ [])
    (h1 : rdr.minX.length = rdr.noOfDetector) (h2 : rdr.maxX.length = rdr.noOfDetector)
    (h3 : rdr.minY.length = rdr.noOfDetector) (h4 : rdr.maxY.length = rdr.noOfDetector) :
    (processRunHeader p rdr).fault = none ∧
    (∀ i, i < (processRunHeader p rdr).proc._initPedestal.length →
      i < (processRunHeader p rdr).proc._initNoise.length ∧
      i < (processRunHeader p rdr).proc._minX.length ∧
      i < (processRunHeader p rdr).proc._maxX.length ∧
      i < (processRunHeader p rdr).proc._minY.length ∧
      i < (processRunHeader p rdr).proc._maxY.length) ∧
    ∀ evt : EUTelEventImpl V,
      (processEvent G (processRunHeader p rdr).proc evt).fault ≠ some .indexOutOfRange := by
  have hrun := processRunHeader_of_ne_nil p rdr hped hnoise
  obtain ⟨f1, f2, f3, f4, _⟩ := processRunHeader_frame p rdr hrun
  obtain ⟨hl1, hl2⟩ := processRunHeader_sizes p rdr hrun
  refine ⟨hrun, ?_, ?_⟩
  · intro i hi
    rw [f1, f2, f3, f4]
    omega
  · intro evt hf
    have hk := processEvent_fault_kind G _ evt .indexOutOfRange hf (by rw [f1]; omega)
      (by rw [f2]; omega) (by rw [f3]; omega) (by rw [f4]; omega) (by omega)
    cases hk

/-- C15 on the end-to-end scenario of the specification and on a geometry with a negative
pixel count: neither data event is stopped by an index out of range. -/
theorem build_indices_in_range_witness :
    (processEvent 0 (processRunHeader scenarioProcessor scenarioHeader).proc
      dataEvent).fault ≠ some .indexOutOfRange ∧
    (processEvent 0 (processRunHeader scenarioProcessor negativeCountHeader).proc
      dataEvent).fault ≠ some .indexOutOfRange :=
  ⟨(build_indices_in_range 0 scenarioProcessor scenarioHeader (List.cons_ne_nil _ _)
      (List.cons_ne_nil _ _) rfl rfl rfl rfl).2.2 dataEvent,
    (build_indices_in_range 0 scenarioProcessor negativeCountHeader (List.cons_ne_nil _ _)
      (List.cons_ne_nil _ _) rfl rfl rfl rfl).2.2 dataEvent⟩

/-! ## Two run starts in a row -/

/-- C16: reconciliation depends on the history of run starts.  With the configured list
`[1, 2, 3, 4, 5, 6]`, a run start with 2 detectors followed by a run start with 6
detectors leaves `[1, 2, 2, 2, 2, 2]`, whereas a run start with 6 detectors on the
configured list leaves `[1, 2, 3, 4, 5, 6]`; so for the pedestal list as for the noise
list. -/
theorem processRunHeader_history_dependent :
    (headerOfCount 2).noOfDetector < sixValues._initPedestal.length ∧
    sixValues._initPedestal.length ≤ (headerOfCount 6).noOfDetector ∧
    (processRunHeader sixValues (headerOfCount 2)).fault = none ∧
    (processRunHeader (processRunHeader sixValues (headerOfCount 2)).proc
      (headerOfCount 6)).fault = none ∧
    (processRunHeader (processRunHeader sixValues (headerOfCount 2)).proc
      (headerOfCount 6)).proc._initPedestal = [1, 2, 2, 2, 2, 2] ∧
    (processRunHeader (processRunHeader sixValues (headerOfCount 2)).proc
      (headerOfCount 6)).proc._initNoise = [1, 2, 2, 2, 2, 2] ∧
    (processRunHeader sixValues (headerOfCount 6)).proc._initPedestal = [1, 2, 3, 4, 5, 6] ∧
    (processRunHeader sixValues (headerOfCount 6)).proc._initNoise = [1, 2, 3, 4, 5, 6] ∧
    (processRunHeader (processRunHeader sixValues (headerOfCount 2)).proc
      (headerOfCount 6)).proc._initPedestal ≠
      (processRunHeader sixValues (headerOfCount 6)).proc._initPedestal := by
  refine ⟨by decide, by decide, rfl, rfl, rfl, rfl, rfl, rfl, ?_⟩
  intro h
  have h2 : (processRunHeader (processRunHeader sixValues (headerOfCount 2)).proc
      (headerOfCount 6)).proc._initPedestal[2]? =
      (processRunHeader sixValues (headerOfCount 6)).proc._initPedestal[2]? := by
    rw [h]
  have h3 : (some (2 : ℚ)) = some 3 := h2
  have h4 : (2 : ℚ) = 3 := Option.some.inj h3
  norm_num at h4

end eutelescope
